import Mathlib

/-!
Verification of the `standardnotes-fs` entry point
(`standardnotes_fs/standardnotes_fs.py`, function `main`) against its
natural-language specification.

The embedding models `main` from the point where command-line options have
been parsed.  File contents are modelled at the parsed level: a config or
creds file is represented by the `ConfigState` that Python's `ConfigParser`
would hold after reading it, and writing the parser state back to a file is
modelled as storing that state.  `ConfigParser` behaviour (option-name
lowering via `optionxform`, `has_option` / `has_section` / `get` / `items` /
`read_dict` / `remove_section`, and `BasicInterpolation` value handling) is
translated from the CPython standard library, restricted to values without
`%(name)s` interpolation references: a value whose interpolation is not a
plain sequence of literal characters and `%%` escapes is treated as an
interpolation error (which in the program surfaces as an uncaught exception).
OS-level failures (unreadable directories, failing writes) are not modelled:
file reads yield either parsed contents or absence, and file writes succeed.
-/

namespace SNFS

/-- Association-list lookup, first match wins (models Python dict lookup). -/
def alookup {α : Type} : List (String × α) → String → Option α
  | [], _ => none
  | (k, v) :: rest, key => if k = key then some v else alookup rest key

/-- Association-list update: an existing key keeps its position (as in a
Python dict), a new key is appended at the end. -/
def aset {α : Type} : List (String × α) → String → α → List (String × α)
  | [], k, v => [(k, v)]
  | (k0, v0) :: rest, k, v =>
      if k0 = k then (k, v) :: rest else (k0, v0) :: aset rest k v

/-- Option names as stored by `ConfigParser.optionxform` (lowercasing,
written over the character list so that it evaluates by reduction). -/
def optionxform (s : String) : String := String.mk (s.data.map Char.toLower)

/-- Parsed state of a `ConfigParser`: the `[DEFAULT]` option map and the
ordinary sections in insertion order (CPython `RawConfigParser._defaults`
and `_sections`). -/
structure ConfigState where
  defaults : List (String × String)
  sections : List (String × List (String × String))
deriving DecidableEq

/-- A fresh parser / an empty file. -/
def emptyConfig : ConfigState := ⟨[], []⟩

/-- `BasicInterpolation` applied to a stored value, restricted to values
without `%(name)s` references: literal characters pass through, `%%`
becomes `%`, and any other use of `%` is an interpolation error (`none`). -/
def interpChars : List Char → Option (List Char)
  | [] => some []
  | c :: rest =>
      if c = '%' then
        match rest with
        | [] => none
        | d :: rest2 =>
            if d = '%' then (interpChars rest2).map (fun l => '%' :: l)
            else none
      else (interpChars rest).map (fun l => c :: l)

/-- Interpolation of a stored string value (see `interpChars`). -/
def interpValue (s : String) : Option String :=
  (interpChars s.data).map fun l => String.mk l

/-- `BasicInterpolation.before_set` validation performed by
`ConfigParser.set`: a value is accepted exactly when its `%` uses are
well-formed (modelled via `interpChars`). -/
def beforeSetOk (s : String) : Bool := (interpValue s).isSome

/-- `ConfigParser.has_section` (the DEFAULT section is not acknowledged). -/
def hasSection (c : ConfigState) (sect : String) : Bool :=
  (alookup c.sections sect).isSome

/-- `ConfigParser.has_option`: a missing section yields `False`; otherwise
the (lowercased) option is looked up in the section and in DEFAULT. -/
def hasOption (c : ConfigState) (sect opt : String) : Bool :=
  if sect = "DEFAULT" then (alookup c.defaults (optionxform opt)).isSome
  else
    match alookup c.sections sect with
    | none => false
    | some o =>
        (alookup o (optionxform opt)).isSome
          || (alookup c.defaults (optionxform opt)).isSome

/-- The raw stored value `ConfigParser.get` would interpolate: section
options shadow DEFAULT options (`_unify_values`); `none` models the
`NoSectionError` / `NoOptionError` exceptions. -/
def getOptRaw (c : ConfigState) (sect opt : String) : Option String :=
  if sect = "DEFAULT" then alookup c.defaults (optionxform opt)
  else
    match alookup c.sections sect with
    | none => none
    | some o =>
        match alookup o (optionxform opt) with
        | some v => some v
        | none => alookup c.defaults (optionxform opt)

/-- `ConfigParser.get` with interpolation; `none` models any raised
exception (missing section/option or interpolation error). -/
def getOpt (c : ConfigState) (sect opt : String) : Option String :=
  (getOptRaw c sect opt).bind interpValue

/-- Python dict `update`: existing keys keep their position, new keys are
appended in order. -/
def dictUpdate (base upd : List (String × String)) : List (String × String) :=
  upd.foldl (fun acc kv => aset acc kv.1 kv.2) base

/-- Interpolate every value of an option list; `none` on the first
interpolation error. -/
def interpAll : List (String × String) → Option (List (String × String))
  | [] => some []
  | (k, v) :: rest =>
      match interpValue v, interpAll rest with
      | some v2, some r => some ((k, v2) :: r)
      | _, _ => none

/-- `ConfigParser.items(section)`: DEFAULT options updated by the section's
options, every value interpolated; `none` models a raised exception
(missing section or interpolation error). -/
def itemsInterp (c : ConfigState) (sect : String) : Option (List (String × String)) :=
  match alookup c.sections sect with
  | none => none
  | some o => interpAll (dictUpdate c.defaults o)

/-- One step of `ConfigParser.read_dict` over a section body: lowercase the
option name, validate the value (`before_set`), store it.  `none` models
the `ValueError` raised on an ill-formed value. -/
def readDictStep (opts : List (String × String)) (kv : String × String) :
    Option (List (String × String)) :=
  if beforeSetOk kv.2 then some (aset opts (optionxform kv.1) kv.2) else none

/-- Fold `readDictStep` over the entries of a section body. -/
def readDictOpts (opts : List (String × String)) :
    List (String × String) → Option (List (String × String))
  | [] => some opts
  | kv :: rest =>
      match readDictStep opts kv with
      | some opts2 => readDictOpts opts2 rest
      | none => none

/-- `ConfigParser.read_dict` restricted to a single section, as used by
`main`: the section is created if absent (`DuplicateSectionError` is
swallowed when it exists), then each entry is set in order.  `none` models
the `ValueError` raised by value validation. -/
def readDictSection (c : ConfigState) (sect : String)
    (kvs : List (String × String)) : Option ConfigState :=
  let c1 : ConfigState :=
    if (alookup c.sections sect).isSome then c
    else ⟨c.defaults, c.sections ++ [(sect, [])]⟩
  match alookup c1.sections sect with
  | none => none
  | some opts =>
      match readDictOpts opts kvs with
      | some opts2 => some ⟨c1.defaults, aset c1.sections sect opts2⟩
      | none => none

/-- `ConfigParser.remove_section` (only ordinary sections are removable). -/
def removeSection (c : ConfigState) (sect : String) : ConfigState :=
  ⟨c.defaults, c.sections.filter (fun s => s.1 ≠ sect)⟩

/-! ### The entry point

`OFFICIAL_SERVER_URL`, `DEFAULT_SYNC_SEC`, `MINIMUM_SYNC_SEC`, `DEFAULT_EXT`
and the messages printed by `main` (standardnotes_fs.py lines 18-21 and the
`print` calls of `main`). -/

/-- `OFFICIAL_SERVER_URL` (line 18). -/
def officialServerUrl : String := "https://sync.standardnotes.org"

/-- `DEFAULT_SYNC_SEC` (line 19). -/
def defaultSyncSec : Int := 30

/-- `MINIMUM_SYNC_SEC` (line 20). -/
def minimumSyncSec : Int := 5

/-- `DEFAULT_EXT` (line 21). -/
def defaultExt : String := ".txt"

/-- The notice printed when the requested interval is below the minimum
(lines 126-127; `print` joins its arguments with spaces). -/
def syncSecNotice : String :=
  "Sync interval must be at least 5 seconds. Using that instead."

/-- The diagnostic printed on `ConnectionError` (lines 212-213). -/
def connErrMsg (url : String) : String :=
  "Unable to connect to the sync server at \"" ++ url ++ "\"."

/-- The diagnostic printed on `MissingSchema` (lines 216-217). -/
def missingSchemaMsg (url : String) : String :=
  "Invalid sync server url \"" ++ url ++ "\"."

/-- Python truthiness of an optional string (`None` and `''` are falsy). -/
def strTruthy : Option String → Bool
  | none => false
  | some s => s ≠ ""

/-- Outcome of a call into `StandardNotesAPI` (`gen_keys` / `sign_in`):
normal return, `SNAPIException` with its printed message, `ConnectionError`,
or `MissingSchema`. -/
inductive ApiResult (α : Type) where
  | ok (a : α)
  | snapi (msg : String)
  | connErr
  | missingSchema
deriving DecidableEq

/-- The remote server / API as an oracle: what `gen_keys` returns for a
given password and what `sign_in` returns for a given keys mapping. -/
structure Server where
  genKeys : String → ApiResult (List (String × String))
  signIn : List (String × String) → ApiResult Unit

/-- Parsed command-line options (`parse_options`), with the argparse
defaults.  `verbosity` and `foreground` only affect logging and are not
modelled. -/
structure Args where
  mountpoint : Option String := none
  username : Option String := none
  password : Option String := none
  syncSec : Int := defaultSyncSec
  syncUrl : Option String := none
  ext : String := defaultExt
  noConfigFiles : Bool := false
  logout : Bool := false
  unmount : Bool := false

/-- The environment of one run: parsed contents of the config and creds
files (`none` = absent/unreadable), what the user would type at the two
prompts, whether the `fusermount`/`umount` subprocess and the `FUSE`
constructor succeed, and the server oracle. -/
structure World where
  configFile : Option ConfigState := none
  credsFile : Option ConfigState := none
  promptUsername : String := ""
  promptPassword : String := ""
  unmountOk : Bool := true
  mountOk : Bool := true
  server : Server

/-- Observable events of a run, in program order: `print` output, the two
interactive prompts, the `gen_keys` call, the `del password` statement, the
`sign_in` call and its success, and the construction of the FUSE
filesystem. -/
inductive Ev where
  | printedMsg (s : String)
  | promptUser
  | promptPass
  | genKeysCall
  | delPassword
  | signInCall
  | signInOk
  | mount
deriving DecidableEq

/-- How the process ends: `sys.exit(code)`, falling off the end of `main`
(exit status 0), or an uncaught Python exception (named; nonzero status). -/
inductive ExitKind where
  | exited (code : Nat)
  | finished
  | crashed (exc : String)
deriving DecidableEq

/-- Result of a run: the event trace, the exit kind, the arguments handed
to `StandardNotesFUSE` (sync interval and extension) if it was constructed,
the sync URL / username / keys / password actually used (instrumentation of
the corresponding source lines), and the config and creds file contents
when the process ends (`none` = file absent). -/
structure RunResult where
  events : List Ev := []
  exit : ExitKind := .finished
  fuseArgs : Option (Int × String) := none
  usedSyncUrl : Option String := none
  usedUsername : Option String := none
  usedKeys : Option (List (String × String)) := none
  genKeysArg : Option String := none
  configFileAfter : Option ConfigState
  credsFileAfter : Option ConfigState
deriving DecidableEq

/-- Lines 255-265: construct the FUSE filesystem (`StandardNotesFUSE`
receives the sync interval and the extension); a `RuntimeError` from the
constructor is caught and reported. -/
def mountStep (a : Args) (w : World) (r : RunResult) (syncSec : Int) : RunResult :=
  let r3 := { r with events := r.events ++ [Ev.mount],
                     fuseArgs := some (syncSec, a.ext) }
  if w.mountOk then r3
  else { r3 with events := r3.events ++ [Ev.printedMsg "Error mounting file system."] }

/-- Lines 220-266: write the config and creds files back (`w+` truncates;
on success the parser state extended with the login data is written, on
failure nothing is, leaving the file empty), then construct the FUSE
filesystem when the login succeeded.  A `ValueError` from value validation
inside `read_dict` propagates out of `main` with the file already
truncated. -/
def writeback (a : Args) (w : World) (r : RunResult) (syncSec : Int)
    (cfg creds : ConfigState) (url username : String)
    (ks : List (String × String)) (success : Bool) : RunResult :=
  let step1 : RunResult × Bool :=
    if a.noConfigFiles then (r, false)
    else if success then
      match readDictSection cfg "user" [("sync_url", url), ("username", username)] with
      | some cfg2 => ({ r with configFileAfter := some (removeSection cfg2 "keys") }, false)
      | none => ({ r with configFileAfter := some emptyConfig,
                          exit := .crashed "ValueError" }, true)
    else ({ r with configFileAfter := some emptyConfig }, false)
  if step1.2 then step1.1
  else
    let r1 := step1.1
    let step2 : RunResult × Bool :=
      if a.noConfigFiles then (r1, false)
      else if success then
        match readDictSection creds "keys" ks with
        | some creds2 => ({ r1 with credsFileAfter := some creds2 }, false)
        | none => ({ r1 with credsFileAfter := some emptyConfig,
                             exit := .crashed "ValueError" }, true)
      else ({ r1 with credsFileAfter := some emptyConfig }, false)
    if step2.2 then step2.1
    else
      let r2 := step2.1
      if success then mountStep a w r2 syncSec
      else r2

/-- Lines 205-218: `sn_api.sign_in(keys)` and the surrounding handlers. -/
def signInStep (a : Args) (w : World) (r : RunResult) (syncSec : Int)
    (cfg creds : ConfigState) (url username : String)
    (ks : List (String × String)) : RunResult :=
  let r := { r with usedKeys := some ks, events := r.events ++ [Ev.signInCall] }
  match w.server.signIn ks with
  | .ok _ =>
      writeback a w { r with events := r.events ++ [Ev.signInOk] }
        syncSec cfg creds url username ks true
  | .snapi m =>
      writeback a w { r with events := r.events ++ [Ev.printedMsg m] }
        syncSec cfg creds url username ks false
  | .connErr =>
      { r with events := r.events ++ [Ev.printedMsg (connErrMsg url)],
               exit := .exited 1 }
  | .missingSchema =>
      { r with events := r.events ++ [Ev.printedMsg (missingSchemaMsg url)],
               exit := .exited 1 }

/-- Lines 199-218: the login block.  `passwordOpt` is the `password`
variable when bound (prompt branch) and `none` in the cached branch, where
referencing it in `gen_keys(password)` raises an `UnboundLocalError`;
`ks0` is the `keys` dict going into `if not keys:`. -/
def doLogin (a : Args) (w : World) (r : RunResult) (syncSec : Int)
    (cfg creds : ConfigState) (url username : String)
    (passwordOpt : Option String) (ks0 : List (String × String)) : RunResult :=
  if ks0 = [] then
    match passwordOpt with
    | none => { r with exit := .crashed "UnboundLocalError" }
    | some pw =>
        let r := { r with genKeysArg := some pw,
                          events := r.events ++ [Ev.genKeysCall] }
        match w.server.genKeys pw with
        | .ok ks =>
            signInStep a w { r with events := r.events ++ [Ev.delPassword] }
              syncSec cfg creds url username ks
        | .snapi m =>
            writeback a w { r with events := r.events ++ [Ev.printedMsg m] }
              syncSec cfg creds url username ks0 false
        | .connErr =>
            { r with events := r.events ++ [Ev.printedMsg (connErrMsg url)],
                     exit := .exited 1 }
        | .missingSchema =>
            { r with events := r.events ++ [Ev.printedMsg (missingSchemaMsg url)],
                     exit := .exited 1 }
  else signInStep a w r syncSec cfg creds url username ks0

/-- Line 194-195: `args.username if args.username else input(...)`. -/
def promptedUsername (a : Args) (w : World) : String :=
  match a.username with
  | some s => if s ≠ "" then s else w.promptUsername
  | none => w.promptUsername

/-- The prompt event emitted by line 194-195, if any. -/
def promptUserEvents (a : Args) : List Ev :=
  match a.username with
  | some s => if s ≠ "" then [] else [Ev.promptUser]
  | none => [Ev.promptUser]

/-- Line 196-197: `args.password if args.password else getpass(...)`. -/
def promptedPassword (a : Args) (w : World) : String :=
  match a.password with
  | some s => if s ≠ "" then s else w.promptPassword
  | none => w.promptPassword

/-- The prompt event emitted by line 196-197, if any. -/
def promptPassEvents (a : Args) : List Ev :=
  match a.password with
  | some s => if s ≠ "" then [] else [Ev.promptPass]
  | none => [Ev.promptPass]

/-- The condition of line 187-190: cached login data is used exactly when
the config file has a username, the creds file has a keys section, and
neither `--username` nor `--password` was given. -/
def cachedCond (a : Args) (cfg creds : ConfigState) : Bool :=
  hasOption cfg "user" "username" && hasSection creds "keys"
    && !strTruthy a.username && !strTruthy a.password

/-- Lines 187-197: choose username/password or the cached keys, then log
in.  In the cached branch `config.get` and `creds.items` may raise an
interpolation error. -/
def loginPhase (a : Args) (w : World) (r : RunResult) (syncSec : Int)
    (cfg creds : ConfigState) (url : String) : RunResult :=
  if cachedCond a cfg creds then
    match getOpt cfg "user" "username" with
    | none => { r with exit := .crashed "InterpolationError" }
    | some username =>
        match itemsInterp creds "keys" with
        | none => { r with exit := .crashed "InterpolationError" }
        | some ks =>
            doLogin a w { r with usedUsername := some username }
              syncSec cfg creds url username none ks
  else
    doLogin a w
      { r with usedUsername := some (promptedUsername a w),
               events := r.events ++ promptUserEvents a ++ promptPassEvents a }
      syncSec cfg creds url (promptedUsername a w) (some (promptedPassword a w)) []

/-- Lines 177-185: sync URL selection.  `none` models the interpolation
error `config.get` can raise. -/
def chooseSyncUrl (a : Args) (cfg : ConfigState) : Option String :=
  if strTruthy a.syncUrl then some (a.syncUrl.getD "")
  else if hasOption cfg "user" "sync_url" then getOpt cfg "user" "sync_url"
  else some officialServerUrl

/-- Lines 123-129: the sync interval actually used, floored at
`MINIMUM_SYNC_SEC`. -/
def flooredSyncSec (a : Args) : Int :=
  if a.syncSec < minimumSyncSec then minimumSyncSec else a.syncSec

/-- The notice event of lines 126-127, if any. -/
def noticeEvents (a : Args) : List Ev :=
  if a.syncSec < minimumSyncSec then [Ev.printedMsg syncSecNotice] else []

/-- Lines 131-153: the config parser state after loading (with
`--no-config-files` or an unreadable file the parser stays empty). -/
def loadedCfg (a : Args) (w : World) : ConfigState :=
  if a.noConfigFiles then emptyConfig else w.configFile.getD emptyConfig

/-- Lines 154-175: the creds parser state after loading. -/
def loadedCreds (a : Args) (w : World) : ConfigState :=
  if a.noConfigFiles then emptyConfig else w.credsFile.getD emptyConfig

/-- The modelled body of `main` (lines 69-266) after option parsing:
logout handling, the mountpoint check, the unmount branch, the sync
interval floor, config/creds loading, sync URL selection, login, the
config/creds writeback and the FUSE mount. -/
def runMain (a : Args) (w : World) : RunResult :=
  let r0 : RunResult := { configFileAfter := w.configFile,
                          credsFileAfter := w.credsFile }
  let r0 :=
    if a.logout then
      { r0 with configFileAfter := none, credsFileAfter := none,
                events := r0.events ++ [Ev.printedMsg "Config files removed."] }
    else r0
  if a.logout && !a.unmount then { r0 with exit := .exited 0 }
  else if !strTruthy a.mountpoint then
    { r0 with events := r0.events ++ [Ev.printedMsg "No mountpoint specified."],
              exit := .exited 1 }
  else if a.unmount then
    if w.unmountOk then
      { r0 with events := r0.events ++ [Ev.printedMsg (a.mountpoint.getD "" ++ " unmounted.")],
                exit := .exited 0 }
    else
      { r0 with events := r0.events ++ [Ev.printedMsg "Error unmounting file system."],
                exit := .exited 1 }
  else
    let r1 := { r0 with events := r0.events ++ noticeEvents a }
    match chooseSyncUrl a (loadedCfg a w) with
    | none => { r1 with exit := .crashed "InterpolationError" }
    | some url =>
        loginPhase a w { r1 with usedSyncUrl := some url } (flooredSyncSec a)
          (loadedCfg a w) (loadedCreds a w) url

/-- The run state at entry to the login phase on the main path: the notice
events, the chosen sync URL, and the untouched files. -/
def entryRec (a : Args) (w : World) (url : String) : RunResult :=
  { events := noticeEvents a, usedSyncUrl := some url,
    configFileAfter := w.configFile, credsFileAfter := w.credsFile }

/-! ### CryptoCodec

Modelled from the spec: the encryption layer (`encrypt`/`decrypt` of
`standardnotes_fs.api`) is not under `src/`; only its caller is.  Following
spec section 4.2, a payload embeds a version marker and an integrity tag
computed over ciphertext plus item metadata using the authentication key;
`decrypt` fails with `IntegrityError` on tag mismatch and
`UnsupportedVersion` for an unrecognized version marker.  The cipher is
modelled as a keystream addition over bytes and the tag as a keyed fold. -/

/-- Modelled from the spec: derivation parameters of a KeySet
(cost factor, salt, version; spec section 3). -/
structure DerivationParams where
  cost : Nat
  salt : Nat
  version : String
deriving DecidableEq

/-- Modelled from the spec: a KeySet of encryption key, auth key and
derivation parameters (spec section 3). -/
structure KeySet where
  encryption_key : Nat
  auth_key : Nat
  params : DerivationParams
deriving DecidableEq

/-- The version marker written by `encrypt`. -/
def currentVersion : String := "003"

/-- Modelled keystream byte `i` for a given encryption key and nonce. -/
def ksByte (ek nonce i : Nat) : Nat := (ek + nonce * 31 + i * 7) % 256

/-- The first `n` keystream bytes. -/
def keystream (ek nonce n : Nat) : List Nat := (List.range n).map (ksByte ek nonce)

/-- Modelled integrity tag: a keyed fold of the ciphertext and the item
metadata under the authentication key. -/
def macTag (ak : Nat) (ct : List Nat) (meta : Nat) : Nat :=
  ct.foldl (fun h b => (h * 131 + b) % 1000003) ((ak + meta) % 1000003)

/-- Modelled from the spec: an encrypted item payload with its version
marker, nonce, item metadata, ciphertext and integrity tag. -/
structure Payload where
  version : String
  nonce : Nat
  meta : Nat
  ciphertext : List Nat
  tag : Nat
deriving DecidableEq

/-- Encryption of one byte with one keystream byte. -/
def encByte (b s : Nat) : Nat := (b + s) % 256

/-- Decryption of one byte with one keystream byte. -/
def decByte (c s : Nat) : Nat := (c + (256 - s % 256)) % 256

/-- Modelled from the spec: `encrypt(plaintext, keyset) -> payload` with a
caller-supplied fresh nonce. -/
def encrypt (p : List Nat) (k : KeySet) (nonce meta : Nat) : Payload :=
  let ct := List.zipWith encByte p (keystream k.encryption_key nonce p.length)
  ⟨currentVersion, nonce, meta, ct, macTag k.auth_key ct meta⟩

/-- Decryption failures (spec section 4.2). -/
inductive DecryptError where
  | integrityError
  | unsupportedVersion
deriving DecidableEq

/-- Modelled from the spec: `decrypt(payload, keyset) -> plaintext`,
checking the version marker and the integrity tag before deciphering. -/
def decrypt (pl : Payload) (k : KeySet) : Except DecryptError (List Nat) :=
  if pl.version ≠ currentVersion then .error .unsupportedVersion
  else if pl.tag ≠ macTag k.auth_key pl.ciphertext pl.meta then .error .integrityError
  else .ok (List.zipWith decByte pl.ciphertext
              (keystream k.encryption_key pl.nonce pl.ciphertext.length))

/-- A value containing no percent sign: interpolation leaves it unchanged
and `before_set` accepts it. -/
def plainVal (v : String) : Bool := v.data.all (fun c => c != '%')

/-- A value that additionally survives the ini text round trip unchanged:
no newline (written as a continuation line) and no surrounding whitespace
(stripped by the parser). -/
def writeSafeVal (v : String) : Bool :=
  v.data.all (fun c => c != '%' && c != '\n')
    && !(v.data.head?.elim false (fun c => c = ' ' || c = '\t'))
    && !(v.data.getLast?.elim false (fun c => c = ' ' || c = '\t'))

/-- All option values stored in a section list. -/
def sectionValues (l : List (String × List (String × String))) : List String :=
  (l.map fun s => s.2.map Prod.snd).flatten

/-- All option values stored in a parser state (DEFAULT and sections). -/
def cfgOptionValues (c : ConfigState) : List String :=
  c.defaults.map Prod.snd ++ sectionValues c.sections

/-- All option values stored in an optional file (absent file: none). -/
def fileOptionValues : Option ConfigState → List String
  | none => []
  | some c => cfgOptionValues c

/-- Example fixture: a server accepting any sign-in and returning fixed
derived keys. -/
def okKeysServer (ks : List (String × String)) : Server :=
  ⟨fun _ => .ok ks, fun _ => .ok ()⟩

/-- Example fixture: command-line credentials and a mountpoint. -/
def argsUP : Args := { mountpoint := some "m", username := some "u", password := some "p" }

/-- Example fixture: an accepting server and no pre-existing files. -/
def worldOK : World := { server := okKeysServer [("mk", "1")] }

/-- Example fixture: a server that rejects every sign-in. -/
def worldRej : World :=
  { server := ⟨fun _ => .ok [("mk", "1")], fun _ => .snapi "Invalid email or password."⟩ }

/-- Example fixture: a server whose sign-in hits a connection error. -/
def worldConn : World :=
  { server := ⟨fun _ => .ok [("mk", "1")], fun _ => .connErr⟩ }

/-- Example fixture: arguments with only a mountpoint. -/
def argsPlain : Args := { mountpoint := some "m" }

/-- Example fixture: cached login data in both files. -/
def worldCached : World :=
  { configFile := some ⟨[], [("user", [("sync_url", "http://s"), ("username", "u")])]⟩,
    credsFile := some ⟨[], [("keys", [("mk", "1")])]⟩,
    server := okKeysServer [] }

/-- Example fixture: a server deriving a keys mapping with an uppercase
key name. -/
def worldUpper : World := { server := okKeysServer [("AK", "v")] }

/-- Example fixture: a config file holding an unrelated pre-existing
section. -/
def worldExtra : World :=
  { configFile := some ⟨[], [("extra", [("a", "b")])]⟩, server := okKeysServer [("k", "v")] }

/-! ### Helper lemmas -/

theorem decByte_encByte (b s : Nat) (hb : b < 256) : decByte (encByte b s) s = b := by
  simp only [decByte, encByte]
  omega

theorem zipWith_dec_enc : ∀ (p ks : List Nat), (∀ b ∈ p, b < 256) →
    p.length = ks.length →
    List.zipWith decByte (List.zipWith encByte p ks) ks = p
  | [], _, _, _ => by simp
  | b :: p, s :: ks, h, hl => by
      simp only [List.zipWith]
      rw [decByte_encByte b s (h b (by simp)),
        zipWith_dec_enc p ks (fun x hx => h x (by simp [hx])) (by simpa using hl)]
  | b :: p, [], h, hl => by simp at hl

theorem mountStep_eq (a : Args) (w : World) (r : RunResult) (s : Int) :
    mountStep a w r s =
      { r with
          events := r.events ++
            (Ev.mount :: (if w.mountOk then [] else [Ev.printedMsg "Error mounting file system."])),
          fuseArgs := some (s, a.ext) } := by
  unfold mountStep
  by_cases h : w.mountOk <;> simp [h]

theorem writeback_false (a : Args) (w : World) (r : RunResult) (s : Int)
    (cfg creds : ConfigState) (url un : String) (ks : List (String × String)) :
    writeback a w r s cfg creds url un ks false =
      if a.noConfigFiles then r
      else
        { r with
            configFileAfter := some emptyConfig,
            credsFileAfter := some emptyConfig } := by
  unfold writeback
  by_cases h : a.noConfigFiles <;> simp [h]

theorem writeback_true_noFiles (a : Args) (w : World) (r : RunResult) (s : Int)
    (cfg creds : ConfigState) (url un : String) (ks : List (String × String))
    (h : a.noConfigFiles = true) :
    writeback a w r s cfg creds url un ks true = mountStep a w r s := by
  unfold writeback
  simp [h]

theorem writeback_true_ok (a : Args) (w : World) (r : RunResult) (s : Int)
    (cfg creds cfg2 creds2 : ConfigState) (url un : String) (ks : List (String × String))
    (h : a.noConfigFiles = false)
    (h1 : readDictSection cfg "user" [("sync_url", url), ("username", un)] = some cfg2)
    (h2 : readDictSection creds "keys" ks = some creds2) :
    writeback a w r s cfg creds url un ks true =
      mountStep a w
        { r with
            configFileAfter := some (removeSection cfg2 "keys"),
            credsFileAfter := some creds2 } s := by
  unfold writeback
  simp [h, h1, h2]

theorem writeback_true_crash1 (a : Args) (w : World) (r : RunResult) (s : Int)
    (cfg creds : ConfigState) (url un : String) (ks : List (String × String))
    (h : a.noConfigFiles = false)
    (h1 : readDictSection cfg "user" [("sync_url", url), ("username", un)] = none) :
    writeback a w r s cfg creds url un ks true =
      { r with configFileAfter := some emptyConfig, exit := .crashed "ValueError" } := by
  unfold writeback
  simp [h, h1]

theorem writeback_true_crash2 (a : Args) (w : World) (r : RunResult) (s : Int)
    (cfg creds cfg2 : ConfigState) (url un : String) (ks : List (String × String))
    (h : a.noConfigFiles = false)
    (h1 : readDictSection cfg "user" [("sync_url", url), ("username", un)] = some cfg2)
    (h2 : readDictSection creds "keys" ks = none) :
    writeback a w r s cfg creds url un ks true =
      { r with
          configFileAfter := some (removeSection cfg2 "keys"),
          credsFileAfter := some emptyConfig, exit := .crashed "ValueError" } := by
  unfold writeback
  simp [h, h1, h2]


theorem signInStep_ok (a : Args) (w : World) (r : RunResult) (s : Int)
    (cfg creds : ConfigState) (url un : String) (ks : List (String × String))
    (h : w.server.signIn ks = .ok ()) :
    signInStep a w r s cfg creds url un ks =
      writeback a w
        { r with
            usedKeys := some ks,
            events := r.events ++ [Ev.signInCall, Ev.signInOk] } s cfg creds url un ks true := by
  unfold signInStep
  simp [h]

theorem signInStep_snapi (a : Args) (w : World) (r : RunResult) (s : Int)
    (cfg creds : ConfigState) (url un : String) (ks : List (String × String)) (m : String)
    (h : w.server.signIn ks = .snapi m) :
    signInStep a w r s cfg creds url un ks =
      writeback a w
        { r with
            usedKeys := some ks,
            events := r.events ++ [Ev.signInCall, Ev.printedMsg m] } s cfg creds url un ks false := by
  unfold signInStep
  simp [h]

theorem signInStep_connErr (a : Args) (w : World) (r : RunResult) (s : Int)
    (cfg creds : ConfigState) (url un : String) (ks : List (String × String))
    (h : w.server.signIn ks = .connErr) :
    signInStep a w r s cfg creds url un ks =
      { r with
          usedKeys := some ks,
          events := r.events ++ [Ev.signInCall, Ev.printedMsg (connErrMsg url)],
          exit := .exited 1 } := by
  unfold signInStep
  simp [h]

theorem signInStep_missingSchema (a : Args) (w : World) (r : RunResult) (s : Int)
    (cfg creds : ConfigState) (url un : String) (ks : List (String × String))
    (h : w.server.signIn ks = .missingSchema) :
    signInStep a w r s cfg creds url un ks =
      { r with
          usedKeys := some ks,
          events := r.events ++ [Ev.signInCall, Ev.printedMsg (missingSchemaMsg url)],
          exit := .exited 1 } := by
  unfold signInStep
  simp [h]

theorem doLogin_cached_nonempty (a : Args) (w : World) (r : RunResult) (s : Int)
    (cfg creds : ConfigState) (url un : String) (pOpt : Option String)
    (ks0 : List (String × String)) (h : ks0 ≠ []) :
    doLogin a w r s cfg creds url un pOpt ks0 = signInStep a w r s cfg creds url un ks0 := by
  unfold doLogin
  simp [h]

theorem doLogin_unbound (a : Args) (w : World) (r : RunResult) (s : Int)
    (cfg creds : ConfigState) (url un : String) :
    doLogin a w r s cfg creds url un none [] =
      { r with exit := .crashed "UnboundLocalError" } := by
  unfold doLogin
  simp

theorem doLogin_derive_ok (a : Args) (w : World) (r : RunResult) (s : Int)
    (cfg creds : ConfigState) (url un pw : String) (ks : List (String × String))
    (h : w.server.genKeys pw = .ok ks) :
    doLogin a w r s cfg creds url un (some pw) [] =
      signInStep a w
        { r with
            genKeysArg := some pw,
            events := r.events ++ [Ev.genKeysCall, Ev.delPassword] } s cfg creds url un ks := by
  unfold doLogin
  simp [h]

theorem doLogin_derive_snapi (a : Args) (w : World) (r : RunResult) (s : Int)
    (cfg creds : ConfigState) (url un pw m : String)
    (h : w.server.genKeys pw = .snapi m) :
    doLogin a w r s cfg creds url un (some pw) [] =
      writeback a w
        { r with
            genKeysArg := some pw,
            events := r.events ++ [Ev.genKeysCall, Ev.printedMsg m] } s cfg creds url un [] false := by
  unfold doLogin
  simp [h]

theorem doLogin_derive_connErr (a : Args) (w : World) (r : RunResult) (s : Int)
    (cfg creds : ConfigState) (url un pw : String)
    (h : w.server.genKeys pw = .connErr) :
    doLogin a w r s cfg creds url un (some pw) [] =
      { r with
          genKeysArg := some pw,
          events := r.events ++ [Ev.genKeysCall, Ev.printedMsg (connErrMsg url)],
          exit := .exited 1 } := by
  unfold doLogin
  simp [h]

theorem doLogin_derive_missingSchema (a : Args) (w : World) (r : RunResult) (s : Int)
    (cfg creds : ConfigState) (url un pw : String)
    (h : w.server.genKeys pw = .missingSchema) :
    doLogin a w r s cfg creds url un (some pw) [] =
      { r with
          genKeysArg := some pw,
          events := r.events ++ [Ev.genKeysCall, Ev.printedMsg (missingSchemaMsg url)],
          exit := .exited 1 } := by
  unfold doLogin
  simp [h]


theorem loginPhase_cached (a : Args) (w : World) (r : RunResult) (s : Int)
    (cfg creds : ConfigState) (url un : String) (ks : List (String × String))
    (hc : cachedCond a cfg creds = true)
    (hu : getOpt cfg "user" "username" = some un)
    (hk : itemsInterp creds "keys" = some ks) :
    loginPhase a w r s cfg creds url =
      doLogin a w { r with usedUsername := some un } s cfg creds url un none ks := by
  unfold loginPhase
  simp [hc, hu, hk]

theorem loginPhase_cached_crashU (a : Args) (w : World) (r : RunResult) (s : Int)
    (cfg creds : ConfigState) (url : String)
    (hc : cachedCond a cfg creds = true)
    (hu : getOpt cfg "user" "username" = none) :
    loginPhase a w r s cfg creds url = { r with exit := .crashed "InterpolationError" } := by
  unfold loginPhase
  simp [hc, hu]

theorem loginPhase_cached_crashK (a : Args) (w : World) (r : RunResult) (s : Int)
    (cfg creds : ConfigState) (url un : String)
    (hc : cachedCond a cfg creds = true)
    (hu : getOpt cfg "user" "username" = some un)
    (hk : itemsInterp creds "keys" = none) :
    loginPhase a w r s cfg creds url = { r with exit := .crashed "InterpolationError" } := by
  unfold loginPhase
  simp [hc, hu, hk]

theorem loginPhase_prompt (a : Args) (w : World) (r : RunResult) (s : Int)
    (cfg creds : ConfigState) (url : String)
    (hc : cachedCond a cfg creds = false) :
    loginPhase a w r s cfg creds url =
      doLogin a w
        { r with
            usedUsername := some (promptedUsername a w),
            events := r.events ++ promptUserEvents a ++ promptPassEvents a }
        s cfg creds url (promptedUsername a w) (some (promptedPassword a w)) [] := by
  unfold loginPhase
  simp [hc]

theorem runMain_main (a : Args) (w : World) (url : String)
    (h0 : a.logout = false) (h2 : strTruthy a.mountpoint = true) (h3 : a.unmount = false)
    (hurl : chooseSyncUrl a (loadedCfg a w) = some url) :
    runMain a w =
      loginPhase a w (entryRec a w url)
        (flooredSyncSec a) (loadedCfg a w) (loadedCreds a w) url := by
  unfold runMain entryRec
  simp [h0, h2, h3, hurl]

theorem runMain_urlCrash (a : Args) (w : World)
    (h0 : a.logout = false) (h2 : strTruthy a.mountpoint = true) (h3 : a.unmount = false)
    (hurl : chooseSyncUrl a (loadedCfg a w) = none) :
    runMain a w =
      { events := noticeEvents a,
        exit := .crashed "InterpolationError",
        configFileAfter := w.configFile,
        credsFileAfter := w.credsFile } := by
  unfold runMain
  simp [h0, h2, h3, hurl]

theorem runMain_early (a : Args) (w : World)
    (h : (a.logout = true ∧ a.unmount = false) ∨ strTruthy a.mountpoint = false
      ∨ a.unmount = true) :
    (runMain a w).usedKeys = none ∧ (runMain a w).genKeysArg = none
      ∧ (runMain a w).fuseArgs = none ∧ (runMain a w).usedSyncUrl = none
      ∧ (runMain a w).usedUsername = none
      ∧ Ev.mount ∉ (runMain a w).events ∧ Ev.signInCall ∉ (runMain a w).events
      ∧ Ev.genKeysCall ∉ (runMain a w).events
      ∧ Ev.promptUser ∉ (runMain a w).events ∧ Ev.promptPass ∉ (runMain a w).events
      ∧ ((runMain a w).configFileAfter = none ∨ (runMain a w).configFileAfter = w.configFile)
      ∧ ((runMain a w).credsFileAfter = none ∨ (runMain a w).credsFileAfter = w.credsFile) := by
  unfold runMain
  rcases h with ⟨hl, hu⟩ | h | h
  · simp [hl, hu]
  · by_cases hl : a.logout <;> by_cases hu : a.unmount <;>
      by_cases hm : w.unmountOk <;> simp [hl, hu, hm, h]
  · by_cases hl : a.logout <;> by_cases hmp : strTruthy a.mountpoint <;>
      by_cases hm : w.unmountOk <;> simp [hl, hmp, hm, h]

theorem mountStep_preserve (a : Args) (w : World) (r : RunResult) (s : Int) :
    (mountStep a w r s).usedKeys = r.usedKeys
      ∧ (mountStep a w r s).genKeysArg = r.genKeysArg
      ∧ (mountStep a w r s).usedSyncUrl = r.usedSyncUrl
      ∧ (mountStep a w r s).usedUsername = r.usedUsername
      ∧ (mountStep a w r s).exit = r.exit
      ∧ (mountStep a w r s).configFileAfter = r.configFileAfter
      ∧ (mountStep a w r s).credsFileAfter = r.credsFileAfter := by
  rw [mountStep_eq]
  simp

theorem writeback_preserve (a : Args) (w : World) (r : RunResult) (s : Int)
    (cfg creds : ConfigState) (url un : String) (ks : List (String × String)) (b : Bool) :
    (writeback a w r s cfg creds url un ks b).usedKeys = r.usedKeys
      ∧ (writeback a w r s cfg creds url un ks b).genKeysArg = r.genKeysArg
      ∧ (writeback a w r s cfg creds url un ks b).usedSyncUrl = r.usedSyncUrl
      ∧ (writeback a w r s cfg creds url un ks b).usedUsername = r.usedUsername := by
  unfold writeback mountStep
  repeat' split
  all_goals simp

theorem writeback_extends (a : Args) (w : World) (r : RunResult) (s : Int)
    (cfg creds : ConfigState) (url un : String) (ks : List (String × String)) (b : Bool) :
    ∃ t, (writeback a w r s cfg creds url un ks b).events = r.events ++ t
      ∧ ((writeback a w r s cfg creds url un ks b).fuseArgs = r.fuseArgs
          ∨ (writeback a w r s cfg creds url un ks b).fuseArgs = some (s, a.ext)) := by
  unfold writeback mountStep
  repeat' split
  all_goals simp

theorem signInStep_extends (a : Args) (w : World) (r : RunResult) (s : Int)
    (cfg creds : ConfigState) (url un : String) (ks : List (String × String)) :
    ∃ t, (signInStep a w r s cfg creds url un ks).events = r.events ++ t
      ∧ ((signInStep a w r s cfg creds url un ks).fuseArgs = r.fuseArgs
          ∨ (signInStep a w r s cfg creds url un ks).fuseArgs = some (s, a.ext)) := by
  rcases hsi : w.server.signIn ks with _ | m | _ | _
  · rw [signInStep_ok a w r s cfg creds url un ks hsi]
    obtain ⟨t, ht, hf⟩ := writeback_extends a w
      { r with usedKeys := some ks, events := r.events ++ [Ev.signInCall, Ev.signInOk] }
      s cfg creds url un ks true
    exact ⟨[Ev.signInCall, Ev.signInOk] ++ t, by simp [ht], by simpa using hf⟩
  · rw [signInStep_snapi a w r s cfg creds url un ks m hsi]
    obtain ⟨t, ht, hf⟩ := writeback_extends a w
      { r with usedKeys := some ks, events := r.events ++ [Ev.signInCall, Ev.printedMsg m] }
      s cfg creds url un ks false
    exact ⟨[Ev.signInCall, Ev.printedMsg m] ++ t, by simp [ht], by simpa using hf⟩
  · rw [signInStep_connErr a w r s cfg creds url un ks hsi]
    exact ⟨[Ev.signInCall, Ev.printedMsg (connErrMsg url)], by simp, by simp⟩
  · rw [signInStep_missingSchema a w r s cfg creds url un ks hsi]
    exact ⟨[Ev.signInCall, Ev.printedMsg (missingSchemaMsg url)], by simp, by simp⟩

theorem doLogin_extends (a : Args) (w : World) (r : RunResult) (s : Int)
    (cfg creds : ConfigState) (url un : String) (pOpt : Option String)
    (ks0 : List (String × String)) :
    ∃ t, (doLogin a w r s cfg creds url un pOpt ks0).events = r.events ++ t
      ∧ ((doLogin a w r s cfg creds url un pOpt ks0).fuseArgs = r.fuseArgs
          ∨ (doLogin a w r s cfg creds url un pOpt ks0).fuseArgs = some (s, a.ext)) := by
  by_cases hks : ks0 = []
  · subst hks
    cases pOpt with
    | none => rw [doLogin_unbound]; exact ⟨[], by simp, by simp⟩
    | some pw =>
        rcases hg : w.server.genKeys pw with ks | m | _ | _
        · rw [doLogin_derive_ok a w r s cfg creds url un pw ks hg]
          obtain ⟨t, ht, hf⟩ := signInStep_extends a w
            { r with genKeysArg := some pw,
                     events := r.events ++ [Ev.genKeysCall, Ev.delPassword] }
            s cfg creds url un ks
          exact ⟨[Ev.genKeysCall, Ev.delPassword] ++ t, by simp [ht], by simpa using hf⟩
        · rw [doLogin_derive_snapi a w r s cfg creds url un pw m hg]
          obtain ⟨t, ht, hf⟩ := writeback_extends a w
            { r with genKeysArg := some pw,
                     events := r.events ++ [Ev.genKeysCall, Ev.printedMsg m] }
            s cfg creds url un [] false
          exact ⟨[Ev.genKeysCall, Ev.printedMsg m] ++ t, by simp [ht], by simpa using hf⟩
        · rw [doLogin_derive_connErr a w r s cfg creds url un pw hg]
          exact ⟨[Ev.genKeysCall, Ev.printedMsg (connErrMsg url)], by simp, by simp⟩
        · rw [doLogin_derive_missingSchema a w r s cfg creds url un pw hg]
          exact ⟨[Ev.genKeysCall, Ev.printedMsg (missingSchemaMsg url)], by simp, by simp⟩
  · rw [doLogin_cached_nonempty a w r s cfg creds url un pOpt ks0 hks]
    exact signInStep_extends a w r s cfg creds url un ks0

theorem loginPhase_extends (a : Args) (w : World) (r : RunResult) (s : Int)
    (cfg creds : ConfigState) (url : String) :
    ∃ t, (loginPhase a w r s cfg creds url).events = r.events ++ t
      ∧ ((loginPhase a w r s cfg creds url).fuseArgs = r.fuseArgs
          ∨ (loginPhase a w r s cfg creds url).fuseArgs = some (s, a.ext)) := by
  by_cases hc : cachedCond a cfg creds
  · rcases hu : getOpt cfg "user" "username" with _ | un
    · rw [loginPhase_cached_crashU a w r s cfg creds url hc hu]
      exact ⟨[], by simp, by simp⟩
    · rcases hk : itemsInterp creds "keys" with _ | ks
      · rw [loginPhase_cached_crashK a w r s cfg creds url un hc hu hk]
        exact ⟨[], by simp, by simp⟩
      · rw [loginPhase_cached a w r s cfg creds url un ks hc hu hk]
        obtain ⟨t, ht, hf⟩ := doLogin_extends a w
          { r with usedUsername := some un } s cfg creds url un none ks
        exact ⟨t, by simpa using ht, by simpa using hf⟩
  · rw [loginPhase_prompt a w r s cfg creds url (by simpa using hc)]
    obtain ⟨t, ht, hf⟩ := doLogin_extends a w
      { r with usedUsername := some (promptedUsername a w),
               events := r.events ++ promptUserEvents a ++ promptPassEvents a }
      s cfg creds url (promptedUsername a w) (some (promptedPassword a w)) []
    exact ⟨promptUserEvents a ++ promptPassEvents a ++ t,
      by simpa [List.append_assoc] using ht, by simpa using hf⟩

theorem noticeEvents_only (a : Args) (e : Ev) (h : e ∈ noticeEvents a) :
    e = Ev.printedMsg syncSecNotice := by
  unfold noticeEvents at h
  split at h <;> simp_all

theorem promptUserEvents_only (a : Args) (e : Ev) (h : e ∈ promptUserEvents a) :
    e = Ev.promptUser := by
  unfold promptUserEvents at h
  rcases hu : a.username with _ | s <;> rw [hu] at h
  · simp_all
  · split at h <;> simp_all

theorem promptPassEvents_only (a : Args) (e : Ev) (h : e ∈ promptPassEvents a) :
    e = Ev.promptPass := by
  unfold promptPassEvents at h
  rcases hp : a.password with _ | s <;> rw [hp] at h
  · simp_all
  · split at h <;> simp_all

theorem signInStep_preserve (a : Args) (w : World) (r : RunResult) (s : Int)
    (cfg creds : ConfigState) (url un : String) (ks : List (String × String)) :
    (signInStep a w r s cfg creds url un ks).usedSyncUrl = r.usedSyncUrl
      ∧ (signInStep a w r s cfg creds url un ks).usedUsername = r.usedUsername
      ∧ (signInStep a w r s cfg creds url un ks).genKeysArg = r.genKeysArg
      ∧ (signInStep a w r s cfg creds url un ks).usedKeys = some ks := by
  rcases hsi : w.server.signIn ks with _ | m | _ | _
  · rw [signInStep_ok a w r s cfg creds url un ks hsi]
    obtain ⟨h1, h2, h3, h4⟩ := writeback_preserve a w
      { r with usedKeys := some ks, events := r.events ++ [Ev.signInCall, Ev.signInOk] }
      s cfg creds url un ks true
    simp_all
  · rw [signInStep_snapi a w r s cfg creds url un ks m hsi]
    obtain ⟨h1, h2, h3, h4⟩ := writeback_preserve a w
      { r with usedKeys := some ks, events := r.events ++ [Ev.signInCall, Ev.printedMsg m] }
      s cfg creds url un ks false
    simp_all
  · rw [signInStep_connErr a w r s cfg creds url un ks hsi]
    simp
  · rw [signInStep_missingSchema a w r s cfg creds url un ks hsi]
    simp

theorem doLogin_preserve (a : Args) (w : World) (r : RunResult) (s : Int)
    (cfg creds : ConfigState) (url un : String) (pOpt : Option String)
    (ks0 : List (String × String)) :
    (doLogin a w r s cfg creds url un pOpt ks0).usedSyncUrl = r.usedSyncUrl
      ∧ (doLogin a w r s cfg creds url un pOpt ks0).usedUsername = r.usedUsername := by
  by_cases hks : ks0 = []
  · subst hks
    cases pOpt with
    | none => rw [doLogin_unbound]; simp
    | some pw =>
        rcases hg : w.server.genKeys pw with ks | m | _ | _
        · rw [doLogin_derive_ok a w r s cfg creds url un pw ks hg]
          obtain ⟨h1, h2, -, -⟩ := signInStep_preserve a w
            { r with genKeysArg := some pw,
                     events := r.events ++ [Ev.genKeysCall, Ev.delPassword] }
            s cfg creds url un ks
          simp_all
        · rw [doLogin_derive_snapi a w r s cfg creds url un pw m hg]
          obtain ⟨-, -, h1, h2⟩ := writeback_preserve a w
            { r with genKeysArg := some pw,
                     events := r.events ++ [Ev.genKeysCall, Ev.printedMsg m] }
            s cfg creds url un [] false
          exact ⟨by simpa using h1, by simpa using h2⟩
        · rw [doLogin_derive_connErr a w r s cfg creds url un pw hg]
          simp
        · rw [doLogin_derive_missingSchema a w r s cfg creds url un pw hg]
          simp
  · rw [doLogin_cached_nonempty a w r s cfg creds url un pOpt ks0 hks]
    obtain ⟨h1, h2, -, -⟩ := signInStep_preserve a w r s cfg creds url un ks0
    exact ⟨h1, h2⟩

theorem loginPhase_preserve_url (a : Args) (w : World) (r : RunResult) (s : Int)
    (cfg creds : ConfigState) (url : String) :
    (loginPhase a w r s cfg creds url).usedSyncUrl = r.usedSyncUrl := by
  by_cases hc : cachedCond a cfg creds
  · rcases hu : getOpt cfg "user" "username" with _ | un
    · rw [loginPhase_cached_crashU a w r s cfg creds url hc hu]
    · rcases hk : itemsInterp creds "keys" with _ | ks
      · rw [loginPhase_cached_crashK a w r s cfg creds url un hc hu hk]
      · rw [loginPhase_cached a w r s cfg creds url un ks hc hu hk]
        obtain ⟨h1, -⟩ := doLogin_preserve a w
          { r with usedUsername := some un } s cfg creds url un none ks
        simpa using h1
  · rw [loginPhase_prompt a w r s cfg creds url (by simpa using hc)]
    obtain ⟨h1, -⟩ := doLogin_preserve a w
      { r with usedUsername := some (promptedUsername a w),
               events := r.events ++ promptUserEvents a ++ promptPassEvents a }
      s cfg creds url (promptedUsername a w) (some (promptedPassword a w)) []
    simpa using h1

theorem runMain_split (a : Args) (w : World) :
    ((runMain a w).usedKeys = none ∧ (runMain a w).genKeysArg = none
      ∧ (runMain a w).fuseArgs = none ∧ (runMain a w).usedSyncUrl = none
      ∧ (runMain a w).usedUsername = none
      ∧ Ev.mount ∉ (runMain a w).events ∧ Ev.signInCall ∉ (runMain a w).events
      ∧ Ev.genKeysCall ∉ (runMain a w).events
      ∧ Ev.promptUser ∉ (runMain a w).events ∧ Ev.promptPass ∉ (runMain a w).events
      ∧ ((runMain a w).configFileAfter = none ∨ (runMain a w).configFileAfter = w.configFile)
      ∧ ((runMain a w).credsFileAfter = none ∨ (runMain a w).credsFileAfter = w.credsFile))
    ∨ (∃ url, a.logout = false ∧ strTruthy a.mountpoint = true ∧ a.unmount = false
        ∧ chooseSyncUrl a (loadedCfg a w) = some url
        ∧ runMain a w =
            loginPhase a w (entryRec a w url)
              (flooredSyncSec a) (loadedCfg a w) (loadedCreds a w) url) := by
  cases h0 : a.logout with
  | true =>
      cases h3 : a.unmount with
      | true => exact Or.inl (runMain_early a w (Or.inr (Or.inr h3)))
      | false => exact Or.inl (runMain_early a w (Or.inl ⟨h0, h3⟩))
  | false =>
      cases h2 : strTruthy a.mountpoint with
      | false => exact Or.inl (runMain_early a w (Or.inr (Or.inl h2)))
      | true =>
          cases h3 : a.unmount with
          | true => exact Or.inl (runMain_early a w (Or.inr (Or.inr h3)))
          | false =>
              rcases hurl : chooseSyncUrl a (loadedCfg a w) with _ | url
              · rw [runMain_urlCrash a w h0 h2 h3 hurl]
                refine Or.inl ⟨rfl, rfl, rfl, rfl, rfl, ?_, ?_, ?_, ?_, ?_,
                  Or.inr rfl, Or.inr rfl⟩
                all_goals
                  intro hmem
                  have := noticeEvents_only a _ (by simpa using hmem)
                  simp_all
              · exact Or.inr ⟨url, rfl, rfl, rfl, rfl, runMain_main a w url h0 h2 h3 hurl⟩

theorem signInStep_snapi_eq (a : Args) (w : World) (r : RunResult) (s : Int)
    (cfg creds : ConfigState) (url un : String) (ks : List (String × String)) (m : String)
    (hsi : w.server.signIn ks = .snapi m) :
    signInStep a w r s cfg creds url un ks =
      { r with
          usedKeys := some ks,
          events := r.events ++ [Ev.signInCall, Ev.printedMsg m],
          configFileAfter :=
            if a.noConfigFiles then r.configFileAfter else some emptyConfig,
          credsFileAfter :=
            if a.noConfigFiles then r.credsFileAfter else some emptyConfig } := by
  rw [signInStep_snapi a w r s cfg creds url un ks m hsi, writeback_false]
  by_cases hn : a.noConfigFiles <;> simp [hn]

theorem doLogin_derive_snapi_eq (a : Args) (w : World) (r : RunResult) (s : Int)
    (cfg creds : ConfigState) (url un pw m : String)
    (hg : w.server.genKeys pw = .snapi m) :
    doLogin a w r s cfg creds url un (some pw) [] =
      { r with
          genKeysArg := some pw,
          events := r.events ++ [Ev.genKeysCall, Ev.printedMsg m],
          configFileAfter :=
            if a.noConfigFiles then r.configFileAfter else some emptyConfig,
          credsFileAfter :=
            if a.noConfigFiles then r.credsFileAfter else some emptyConfig } := by
  rw [doLogin_derive_snapi a w r s cfg creds url un pw m hg, writeback_false]
  by_cases hn : a.noConfigFiles <;> simp [hn]

theorem signInStep_ok_noFiles (a : Args) (w : World) (r : RunResult) (s : Int)
    (cfg creds : ConfigState) (url un : String) (ks : List (String × String))
    (hsi : w.server.signIn ks = .ok ()) (hn : a.noConfigFiles = true) :
    signInStep a w r s cfg creds url un ks =
      mountStep a w
        { r with
            usedKeys := some ks,
            events := r.events ++ [Ev.signInCall, Ev.signInOk] } s := by
  rw [signInStep_ok a w r s cfg creds url un ks hsi,
    writeback_true_noFiles a w _ s cfg creds url un ks hn]

theorem signInStep_ok_files (a : Args) (w : World) (r : RunResult) (s : Int)
    (cfg creds cfg2 creds2 : ConfigState) (url un : String) (ks : List (String × String))
    (hsi : w.server.signIn ks = .ok ()) (hn : a.noConfigFiles = false)
    (h1 : readDictSection cfg "user" [("sync_url", url), ("username", un)] = some cfg2)
    (h2 : readDictSection creds "keys" ks = some creds2) :
    signInStep a w r s cfg creds url un ks =
      mountStep a w
        { r with
            usedKeys := some ks,
            events := r.events ++ [Ev.signInCall, Ev.signInOk],
            configFileAfter := some (removeSection cfg2 "keys"),
            credsFileAfter := some creds2 } s := by
  rw [signInStep_ok a w r s cfg creds url un ks hsi,
    writeback_true_ok a w _ s cfg creds cfg2 creds2 url un ks hn h1 h2]

theorem signInStep_ok_crash1 (a : Args) (w : World) (r : RunResult) (s : Int)
    (cfg creds : ConfigState) (url un : String) (ks : List (String × String))
    (hsi : w.server.signIn ks = .ok ()) (hn : a.noConfigFiles = false)
    (h1 : readDictSection cfg "user" [("sync_url", url), ("username", un)] = none) :
    signInStep a w r s cfg creds url un ks =
      { r with
          usedKeys := some ks,
          events := r.events ++ [Ev.signInCall, Ev.signInOk],
          configFileAfter := some emptyConfig,
          exit := .crashed "ValueError" } := by
  rw [signInStep_ok a w r s cfg creds url un ks hsi,
    writeback_true_crash1 a w _ s cfg creds url un ks hn h1]

theorem signInStep_ok_crash2 (a : Args) (w : World) (r : RunResult) (s : Int)
    (cfg creds cfg2 : ConfigState) (url un : String) (ks : List (String × String))
    (hsi : w.server.signIn ks = .ok ()) (hn : a.noConfigFiles = false)
    (h1 : readDictSection cfg "user" [("sync_url", url), ("username", un)] = some cfg2)
    (h2 : readDictSection creds "keys" ks = none) :
    signInStep a w r s cfg creds url un ks =
      { r with
          usedKeys := some ks,
          events := r.events ++ [Ev.signInCall, Ev.signInOk],
          configFileAfter := some (removeSection cfg2 "keys"),
          credsFileAfter := some emptyConfig,
          exit := .crashed "ValueError" } := by
  rw [signInStep_ok a w r s cfg creds url un ks hsi,
    writeback_true_crash2 a w _ s cfg creds cfg2 url un ks hn h1 h2]

theorem signInStep_cases (a : Args) (w : World) (r : RunResult) (s : Int)
    (cfg creds : ConfigState) (url un : String) (ks : List (String × String)) :
    (w.server.signIn ks = .ok () ∧ a.noConfigFiles = true
      ∧ signInStep a w r s cfg creds url un ks =
          mountStep a w
            { r with usedKeys := some ks,
                     events := r.events ++ [Ev.signInCall, Ev.signInOk] } s)
    ∨ (∃ cfg2 creds2, w.server.signIn ks = .ok () ∧ a.noConfigFiles = false
        ∧ readDictSection cfg "user" [("sync_url", url), ("username", un)] = some cfg2
        ∧ readDictSection creds "keys" ks = some creds2
        ∧ signInStep a w r s cfg creds url un ks =
            mountStep a w
              { r with usedKeys := some ks,
                       events := r.events ++ [Ev.signInCall, Ev.signInOk],
                       configFileAfter := some (removeSection cfg2 "keys"),
                       credsFileAfter := some creds2 } s)
    ∨ (w.server.signIn ks = .ok () ∧ a.noConfigFiles = false
        ∧ readDictSection cfg "user" [("sync_url", url), ("username", un)] = none
        ∧ signInStep a w r s cfg creds url un ks =
            { r with usedKeys := some ks,
                     events := r.events ++ [Ev.signInCall, Ev.signInOk],
                     configFileAfter := some emptyConfig,
                     exit := .crashed "ValueError" })
    ∨ (∃ cfg2, w.server.signIn ks = .ok () ∧ a.noConfigFiles = false
        ∧ readDictSection cfg "user" [("sync_url", url), ("username", un)] = some cfg2
        ∧ readDictSection creds "keys" ks = none
        ∧ signInStep a w r s cfg creds url un ks =
            { r with usedKeys := some ks,
                     events := r.events ++ [Ev.signInCall, Ev.signInOk],
                     configFileAfter := some (removeSection cfg2 "keys"),
                     credsFileAfter := some emptyConfig,
                     exit := .crashed "ValueError" })
    ∨ (∃ m, w.server.signIn ks = .snapi m
        ∧ signInStep a w r s cfg creds url un ks =
            { r with usedKeys := some ks,
                     events := r.events ++ [Ev.signInCall, Ev.printedMsg m],
                     configFileAfter :=
                       if a.noConfigFiles then r.configFileAfter else some emptyConfig,
                     credsFileAfter :=
                       if a.noConfigFiles then r.credsFileAfter else some emptyConfig })
    ∨ (w.server.signIn ks = .connErr
        ∧ signInStep a w r s cfg creds url un ks =
            { r with usedKeys := some ks,
                     events := r.events ++ [Ev.signInCall, Ev.printedMsg (connErrMsg url)],
                     exit := .exited 1 })
    ∨ (w.server.signIn ks = .missingSchema
        ∧ signInStep a w r s cfg creds url un ks =
            { r with usedKeys := some ks,
                     events := r.events ++ [Ev.signInCall, Ev.printedMsg (missingSchemaMsg url)],
                     exit := .exited 1 }) := by
  rcases hsi : w.server.signIn ks with _ | m | _ | _
  · by_cases hn : a.noConfigFiles
    · exact Or.inl ⟨rfl, hn, signInStep_ok_noFiles a w r s cfg creds url un ks hsi hn⟩
    · rcases h1 : readDictSection cfg "user" [("sync_url", url), ("username", un)]
        with _ | cfg2
      · exact Or.inr (Or.inr (Or.inl ⟨rfl, by simpa using hn, rfl,
          signInStep_ok_crash1 a w r s cfg creds url un ks hsi (by simpa using hn) h1⟩))
      · rcases h2 : readDictSection creds "keys" ks with _ | creds2
        · exact Or.inr (Or.inr (Or.inr (Or.inl ⟨cfg2, rfl, by simpa using hn, rfl, rfl,
            signInStep_ok_crash2 a w r s cfg creds cfg2 url un ks hsi (by simpa using hn) h1 h2⟩)))
        · exact Or.inr (Or.inl ⟨cfg2, creds2, rfl, by simpa using hn, rfl, rfl,
            signInStep_ok_files a w r s cfg creds cfg2 creds2 url un ks hsi (by simpa using hn) h1 h2⟩)
  · exact Or.inr (Or.inr (Or.inr (Or.inr (Or.inl ⟨m, rfl,
      signInStep_snapi_eq a w r s cfg creds url un ks m hsi⟩))))
  · exact Or.inr (Or.inr (Or.inr (Or.inr (Or.inr (Or.inl ⟨rfl,
      signInStep_connErr a w r s cfg creds url un ks hsi⟩)))))
  · exact Or.inr (Or.inr (Or.inr (Or.inr (Or.inr (Or.inr ⟨rfl,
      signInStep_missingSchema a w r s cfg creds url un ks hsi⟩)))))


theorem loginPhase_cases (a : Args) (w : World) (r : RunResult) (s : Int)
    (cfg creds : ConfigState) (url : String) :
    (loginPhase a w r s cfg creds url = { r with exit := .crashed "InterpolationError" })
    ∨ (∃ un, cachedCond a cfg creds = true
        ∧ getOpt cfg "user" "username" = some un
        ∧ itemsInterp creds "keys" = some []
        ∧ loginPhase a w r s cfg creds url =
            { r with usedUsername := some un, exit := .crashed "UnboundLocalError" })
    ∨ (∃ un ks, cachedCond a cfg creds = true
        ∧ getOpt cfg "user" "username" = some un
        ∧ itemsInterp creds "keys" = some ks ∧ ks ≠ []
        ∧ loginPhase a w r s cfg creds url =
            signInStep a w { r with usedUsername := some un } s cfg creds url un ks)
    ∨ (∃ ks, cachedCond a cfg creds = false
        ∧ w.server.genKeys (promptedPassword a w) = .ok ks
        ∧ loginPhase a w r s cfg creds url =
            signInStep a w
              { r with
                  usedUsername := some (promptedUsername a w),
                  genKeysArg := some (promptedPassword a w),
                  events := r.events ++ promptUserEvents a ++ promptPassEvents a
                    ++ [Ev.genKeysCall, Ev.delPassword] }
              s cfg creds url (promptedUsername a w) ks)
    ∨ (∃ m, cachedCond a cfg creds = false
        ∧ w.server.genKeys (promptedPassword a w) = .snapi m
        ∧ loginPhase a w r s cfg creds url =
            { r with
                usedUsername := some (promptedUsername a w),
                genKeysArg := some (promptedPassword a w),
                events := r.events ++ promptUserEvents a ++ promptPassEvents a
                  ++ [Ev.genKeysCall, Ev.printedMsg m],
                configFileAfter :=
                  if a.noConfigFiles then r.configFileAfter else some emptyConfig,
                credsFileAfter :=
                  if a.noConfigFiles then r.credsFileAfter else some emptyConfig })
    ∨ (cachedCond a cfg creds = false
        ∧ w.server.genKeys (promptedPassword a w) = .connErr
        ∧ loginPhase a w r s cfg creds url =
            { r with
                usedUsername := some (promptedUsername a w),
                genKeysArg := some (promptedPassword a w),
                events := r.events ++ promptUserEvents a ++ promptPassEvents a
                  ++ [Ev.genKeysCall, Ev.printedMsg (connErrMsg url)],
                exit := .exited 1 })
    ∨ (cachedCond a cfg creds = false
        ∧ w.server.genKeys (promptedPassword a w) = .missingSchema
        ∧ loginPhase a w r s cfg creds url =
            { r with
                usedUsername := some (promptedUsername a w),
                genKeysArg := some (promptedPassword a w),
                events := r.events ++ promptUserEvents a ++ promptPassEvents a
                  ++ [Ev.genKeysCall, Ev.printedMsg (missingSchemaMsg url)],
                exit := .exited 1 }) := by
  by_cases hc : cachedCond a cfg creds
  · rcases hu : getOpt cfg "user" "username" with _ | un
    · exact Or.inl (loginPhase_cached_crashU a w r s cfg creds url hc hu)
    · rcases hk : itemsInterp creds "keys" with _ | ks
      · exact Or.inl (loginPhase_cached_crashK a w r s cfg creds url un hc hu hk)
      · by_cases hks : ks = []
        · subst hks
          refine Or.inr (Or.inl ⟨un, hc, rfl, rfl, ?_⟩)
          rw [loginPhase_cached a w r s cfg creds url un [] hc hu hk, doLogin_unbound]
        · refine Or.inr (Or.inr (Or.inl ⟨un, ks, hc, rfl, rfl, hks, ?_⟩))
          rw [loginPhase_cached a w r s cfg creds url un ks hc hu hk,
            doLogin_cached_nonempty a w _ s cfg creds url un none ks hks]
  · have hc2 : cachedCond a cfg creds = false := by simpa using hc
    rcases hg : w.server.genKeys (promptedPassword a w) with ks | m | _ | _
    · refine Or.inr (Or.inr (Or.inr (Or.inl ⟨ks, hc2, rfl, ?_⟩)))
      rw [loginPhase_prompt a w r s cfg creds url hc2,
        doLogin_derive_ok a w _ s cfg creds url (promptedUsername a w)
          (promptedPassword a w) ks hg]
    · refine Or.inr (Or.inr (Or.inr (Or.inr (Or.inl ⟨m, hc2, rfl, ?_⟩))))
      rw [loginPhase_prompt a w r s cfg creds url hc2,
        doLogin_derive_snapi_eq a w _ s cfg creds url (promptedUsername a w)
          (promptedPassword a w) m hg]
    · refine Or.inr (Or.inr (Or.inr (Or.inr (Or.inr (Or.inl ⟨hc2, rfl, ?_⟩)))))
      rw [loginPhase_prompt a w r s cfg creds url hc2,
        doLogin_derive_connErr a w _ s cfg creds url (promptedUsername a w)
          (promptedPassword a w) hg]
    · refine Or.inr (Or.inr (Or.inr (Or.inr (Or.inr (Or.inr ⟨hc2, rfl, ?_⟩)))))
      rw [loginPhase_prompt a w r s cfg creds url hc2,
        doLogin_derive_missingSchema a w _ s cfg creds url (promptedUsername a w)
          (promptedPassword a w) hg]

theorem interpChars_plain : ∀ (l : List Char), (∀ c ∈ l, c ≠ '%') →
    interpChars l = some l
  | [], _ => rfl
  | c :: rest, h => by
      unfold interpChars
      rw [if_neg (h c (by simp))]
      rw [interpChars_plain rest (fun x hx => h x (by simp [hx]))]
      rfl

theorem interpValue_plain (v : String) (h : ∀ c ∈ v.data, c ≠ '%') :
    interpValue v = some v := by
  unfold interpValue
  rw [interpChars_plain v.data h]
  rfl

theorem beforeSetOk_plain (v : String) (h : ∀ c ∈ v.data, c ≠ '%') :
    beforeSetOk v = true := by
  unfold beforeSetOk
  rw [interpValue_plain v h]
  rfl

theorem writeSafe_plain (v : String) (h : writeSafeVal v = true) :
    ∀ c ∈ v.data, c ≠ '%' := by
  unfold writeSafeVal at h
  intro c hc
  have h1 := (Bool.and_eq_true _ _ |>.mp (Bool.and_eq_true _ _ |>.mp h).1).1
  have h2 := List.all_eq_true.mp h1 c hc
  exact fun hcc => by simp [hcc] at h2

theorem aset_fresh {α : Type} : ∀ (l : List (String × α)) (k : String) (v : α),
    alookup l k = none → aset l k v = l ++ [(k, v)]
  | [], _, _, _ => rfl
  | (k0, v0) :: rest, k, v, h => by
      unfold aset
      unfold alookup at h
      have hne : k0 ≠ k := by
        intro he
        rw [if_pos he] at h
        cases h
      rw [if_neg hne]
      rw [aset_fresh rest k v (by rwa [if_neg hne] at h)]
      simp

theorem alookup_append_none {α : Type} : ∀ (l1 l2 : List (String × α)) (k : String),
    alookup l1 k = none → alookup l2 k = none → alookup (l1 ++ l2) k = none
  | [], l2, k, _, h2 => h2
  | (k0, v0) :: rest, l2, k, h1, h2 => by
      unfold alookup at h1
      by_cases he : k0 = k
      · rw [if_pos he] at h1
        cases h1
      · rw [if_neg he] at h1
        show (if k0 = k then some v0 else alookup (rest ++ l2) k) = none
        rw [if_neg he]
        exact alookup_append_none rest l2 k h1 h2

theorem readDictOpts_fresh : ∀ (ks opts : List (String × String)),
    (∀ kv ∈ ks, optionxform kv.1 = kv.1 ∧ beforeSetOk kv.2 = true) →
    (∀ kv ∈ ks, alookup opts kv.1 = none) →
    (ks.map Prod.fst).Nodup →
    readDictOpts opts ks = some (opts ++ ks)
  | [], opts, _, _, _ => by simp [readDictOpts]
  | kv :: rest, opts, hx, hfresh, hnd => by
      obtain ⟨hx1, hx2⟩ := hx kv (by simp)
      unfold readDictOpts readDictStep
      rw [hx2]
      simp only [if_true]
      rw [hx1, aset_fresh opts kv.1 kv.2 (hfresh kv (by simp))]
      have hnd2 : (rest.map Prod.fst).Nodup := by
        simpa using hnd.of_cons
      have hfresh2 : ∀ kv2 ∈ rest, alookup (opts ++ [(kv.1, kv.2)]) kv2.1 = none := by
        intro kv2 hkv2
        apply alookup_append_none
        · exact hfresh kv2 (by simp [hkv2])
        · unfold alookup
          rw [if_neg]
          · rfl
          · intro he
            have hni : kv.1 ∉ rest.map Prod.fst := by
              have hc : (kv.1 :: rest.map Prod.fst).Nodup := by simpa using hnd
              exact (List.nodup_cons.mp hc).1
            exact hni (by rw [he]; exact List.mem_map_of_mem Prod.fst hkv2)
      rw [readDictOpts_fresh rest (opts ++ [(kv.1, kv.2)])
        (fun x hx0 => hx x (by simp [hx0])) hfresh2 hnd2]
      simp

theorem dictUpdate_fresh : ∀ (ks acc : List (String × String)),
    (∀ kv ∈ ks, alookup acc kv.1 = none) →
    (ks.map Prod.fst).Nodup →
    dictUpdate acc ks = acc ++ ks
  | [], acc, _, _ => by simp [dictUpdate]
  | kv :: rest, acc, hfresh, hnd => by
      unfold dictUpdate
      simp only [List.foldl_cons]
      rw [aset_fresh acc kv.1 kv.2 (hfresh kv (by simp))]
      have hfresh2 : ∀ kv2 ∈ rest, alookup (acc ++ [(kv.1, kv.2)]) kv2.1 = none := by
        intro kv2 hkv2
        apply alookup_append_none
        · exact hfresh kv2 (by simp [hkv2])
        · unfold alookup
          rw [if_neg]
          · rfl
          · intro he
            have hni : kv.1 ∉ rest.map Prod.fst := by
              have hc : (kv.1 :: rest.map Prod.fst).Nodup := by simpa using hnd
              exact (List.nodup_cons.mp hc).1
            exact hni (by rw [he]; exact List.mem_map_of_mem Prod.fst hkv2)
      have := dictUpdate_fresh rest (acc ++ [(kv.1, kv.2)]) hfresh2 (by simpa using hnd.of_cons)
      unfold dictUpdate at this
      rw [this]
      simp

theorem interpAll_plain : ∀ (ks : List (String × String)),
    (∀ kv ∈ ks, ∀ c ∈ kv.2.data, c ≠ '%') →
    interpAll ks = some ks
  | [], _ => rfl
  | (k, v) :: rest, h => by
      unfold interpAll
      rw [interpValue_plain v (h (k, v) (by simp)),
        interpAll_plain rest (fun x hx => h x (by simp [hx]))]


theorem readDictSection_empty (sect : String) (kvs : List (String × String))
    (hx : ∀ kv ∈ kvs, optionxform kv.1 = kv.1 ∧ beforeSetOk kv.2 = true)
    (hnd : (kvs.map Prod.fst).Nodup) :
    readDictSection emptyConfig sect kvs = some ⟨[], [(sect, kvs)]⟩ := by
  simp [readDictSection, emptyConfig, alookup, aset,
    readDictOpts_fresh kvs [] hx (fun kv _ => rfl) hnd]

theorem aset_values : ∀ (l : List (String × String)) (k v : String) (x : String),
    x ∈ (aset l k v).map Prod.snd → x ∈ l.map Prod.snd ∨ x = v
  | [], k, v, x, h => by
      simp [aset] at h
      exact Or.inr h
  | (k0, v0) :: rest, k, v, x, h => by
      unfold aset at h
      by_cases he : k0 = k
      · rw [if_pos he] at h
        simp at h
        rcases h with h | h
        · exact Or.inr h
        · exact Or.inl (by simp [h])
      · rw [if_neg he] at h
        simp at h
        rcases h with h | h
        · exact Or.inl (by simp [h])
        · rcases aset_values rest k v x (by simpa using h) with h2 | h2
          · exact Or.inl (by simp [h2])
          · exact Or.inr h2

theorem aset_section_values :
    ∀ (l : List (String × List (String × String)))
      (sect : String) (opts : List (String × String)) (x : String),
    x ∈ sectionValues (aset l sect opts) →
      x ∈ sectionValues l ∨ x ∈ opts.map Prod.snd
  | [], sect, opts, x, h => by
      simp [aset, sectionValues] at h
      exact Or.inr (by simpa using h)
  | (s0, o0) :: rest, sect, opts, x, h => by
      unfold aset at h
      by_cases he : s0 = sect
      · rw [if_pos he] at h
        simp [sectionValues] at h
        rcases h with h | h
        · exact Or.inr (by simpa using h)
        · exact Or.inl (by simp [sectionValues, h])
      · rw [if_neg he] at h
        simp [sectionValues] at h
        rcases h with h | h
        · exact Or.inl (by simp [sectionValues, h])
        · rcases aset_section_values rest sect opts x (by simpa [sectionValues] using h)
            with h2 | h2
          · exact Or.inl (by simp [sectionValues] at h2 ⊢; exact Or.inr h2)
          · exact Or.inr h2

theorem alookup_section_values (l : List (String × List (String × String)))
    (sect : String) (opts : List (String × String))
    (h : alookup l sect = some opts) :
    ∀ x ∈ opts.map Prod.snd, x ∈ sectionValues l := by
  induction l with
  | nil => cases h
  | cons hd tl ih =>
      unfold alookup at h
      by_cases he : hd.1 = sect
      · rw [if_pos he] at h
        intro x hx
        simp [sectionValues]
        exact Or.inl (by rw [show hd.2 = opts from by injection h]; simpa using hx)
      · rw [if_neg he] at h
        intro x hx
        simp [sectionValues]
        exact Or.inr (by have := ih h x hx; simpa [sectionValues] using this)

theorem readDictOpts_values :
    ∀ (kvs opts opts2 : List (String × String)),
    readDictOpts opts kvs = some opts2 →
    ∀ x ∈ opts2.map Prod.snd, x ∈ opts.map Prod.snd ∨ x ∈ kvs.map Prod.snd
  | [], opts, opts2, h, x, hx => by
      unfold readDictOpts at h
      injection h with h
      exact Or.inl (by rwa [h])
  | kv :: rest, opts, opts2, h, x, hx => by
      unfold readDictOpts readDictStep at h
      by_cases hb : beforeSetOk kv.2
      · rw [if_pos hb] at h
        simp only at h
        rcases readDictOpts_values rest _ opts2 h x hx with h2 | h2
        · rcases aset_values opts (optionxform kv.1) kv.2 x h2 with h3 | h3
          · exact Or.inl h3
          · exact Or.inr (by simp [h3])
        · exact Or.inr (by simp [h2])
      · rw [if_neg hb] at h
        cases h

theorem readDictSection_values_core (defaults : List (String × String))
    (sections : List (String × List (String × String)))
    (sect : String) (opts opts2 kvs : List (String × String))
    (halo : alookup sections sect = some opts)
    (hop : readDictOpts opts kvs = some opts2) :
    ∀ x ∈ cfgOptionValues ⟨defaults, aset sections sect opts2⟩,
      x ∈ cfgOptionValues ⟨defaults, sections⟩ ∨ x ∈ kvs.map Prod.snd := by
  intro x hx
  simp only [cfgOptionValues] at hx ⊢
  rcases List.mem_append.mp hx with hx | hx
  · exact Or.inl (List.mem_append.mpr (Or.inl hx))
  · rcases aset_section_values sections sect opts2 x hx with h2 | h2
    · exact Or.inl (List.mem_append.mpr (Or.inr h2))
    · rcases readDictOpts_values kvs opts opts2 hop x h2 with h3 | h3
      · exact Or.inl (List.mem_append.mpr (Or.inr
          (alookup_section_values sections sect opts halo x h3)))
      · exact Or.inr h3

theorem readDictSection_values (c c2 : ConfigState) (sect : String)
    (kvs : List (String × String))
    (h : readDictSection c sect kvs = some c2) :
    ∀ x ∈ cfgOptionValues c2, x ∈ cfgOptionValues c ∨ x ∈ kvs.map Prod.snd := by
  simp only [readDictSection] at h
  by_cases hin : (alookup c.sections sect).isSome = true
  · rw [if_pos hin] at h
    obtain ⟨opts, halo⟩ := Option.isSome_iff_exists.mp hin
    rw [halo] at h
    simp only at h
    rcases hop : readDictOpts opts kvs with _ | opts2
    · rw [hop] at h
      cases h
    · rw [hop] at h
      injection h with h
      rw [← h]
      exact readDictSection_values_core c.defaults c.sections sect opts opts2 kvs halo hop
  · rw [if_neg hin] at h
    simp only at h
    rcases halo : alookup (c.sections ++ [(sect, [])]) sect with _ | opts
    · rw [halo] at h
      cases h
    · rw [halo] at h
      simp only at h
      rcases hop : readDictOpts opts kvs with _ | opts2
      · rw [hop] at h
        cases h
      · rw [hop] at h
        injection h with h
        rw [← h]
        intro x hx
        rcases readDictSection_values_core c.defaults (c.sections ++ [(sect, [])])
            sect opts opts2 kvs halo hop x hx with h2 | h2
        · left
          simp only [cfgOptionValues, sectionValues, List.map_append,
            List.flatten_append] at h2 ⊢
          rcases List.mem_append.mp h2 with h3 | h3
          · exact List.mem_append.mpr (Or.inl h3)
          · rcases List.mem_append.mp h3 with h4 | h4
            · exact List.mem_append.mpr (Or.inr h4)
            · simp at h4
        · exact Or.inr h2

theorem removeSection_values (c : ConfigState) (sect : String) :
    ∀ x ∈ cfgOptionValues (removeSection c sect), x ∈ cfgOptionValues c := by
  intro x hx
  simp only [removeSection, cfgOptionValues, sectionValues] at hx ⊢
  rcases List.mem_append.mp hx with hx | hx
  · exact List.mem_append.mpr (Or.inl hx)
  · refine List.mem_append.mpr (Or.inr ?_)
    simp only [List.mem_flatten, List.mem_map] at hx ⊢
    obtain ⟨L, ⟨sp, hsp, hL⟩, hxL⟩ := hx
    exact ⟨L, ⟨sp, (List.mem_filter.mp hsp).1, hL⟩, hxL⟩


theorem loadedCfg_values (a : Args) (w : World) :
    ∀ x ∈ cfgOptionValues (loadedCfg a w), x ∈ fileOptionValues w.configFile := by
  intro x hx
  unfold loadedCfg at hx
  split at hx
  · simp [cfgOptionValues, emptyConfig, sectionValues] at hx
  · rcases hcf : w.configFile with _ | c
    · rw [hcf] at hx
      simp [cfgOptionValues, emptyConfig, sectionValues] at hx
    · rw [hcf] at hx
      simpa [fileOptionValues] using hx

theorem loadedCreds_values (a : Args) (w : World) :
    ∀ x ∈ cfgOptionValues (loadedCreds a w), x ∈ fileOptionValues w.credsFile := by
  intro x hx
  unfold loadedCreds at hx
  split at hx
  · simp [cfgOptionValues, emptyConfig, sectionValues] at hx
  · rcases hcf : w.credsFile with _ | c
    · rw [hcf] at hx
      simp [cfgOptionValues, emptyConfig, sectionValues] at hx
    · rw [hcf] at hx
      simpa [fileOptionValues] using hx

/-! ### Claim theorems -/

/-- C7: for all plaintext p (a byte sequence) and every KeySet k,
decrypting the encryption of p under k yields p:
decrypt(encrypt(p, k), k) == p. -/
theorem decrypt_encrypt (p : List Nat) (k : KeySet) (nonce meta : Nat)
    (hp : ∀ b ∈ p, b < 256) :
    decrypt (encrypt p k nonce meta) k = Except.ok p := by
  have hks : (keystream k.encryption_key nonce p.length).length = p.length := by
    simp [keystream]
  simp only [encrypt, decrypt, ne_eq, not_true_eq_false, if_false]
  have hct : (List.zipWith encByte p (keystream k.encryption_key nonce p.length)).length
      = p.length := by
    simp [hks]
  simp only [hct]
  rw [zipWith_dec_enc p _ hp hks.symm]

/-- Witness for C7 at a concrete plaintext and KeySet. -/
theorem decrypt_encrypt_witness :
    (∀ b ∈ [104, 105, 33], b < 256) ∧
      decrypt (encrypt [104, 105, 33] ⟨7, 9, ⟨110003, 42, "003"⟩⟩ 5 2)
          ⟨7, 9, ⟨110003, 42, "003"⟩⟩ = Except.ok [104, 105, 33] :=
  ⟨by decide, decrypt_encrypt _ _ _ _ (by decide)⟩

/-- C2: for every run that reaches mounting, the sync interval handed to
the filesystem layer is floor-enforced: below the minimum of 5 seconds the
interval used is exactly 5 and a notice is printed; otherwise the interval
used equals the requested value (and the argparse default is 30). -/
theorem sync_sec_floor_enforced (a : Args) (w : World) (s : Int) (e : String)
    (h : (runMain a w).fuseArgs = some (s, e)) :
    ((a.syncSec < minimumSyncSec →
        s = minimumSyncSec ∧ Ev.printedMsg syncSecNotice ∈ (runMain a w).events)
      ∧ (¬ a.syncSec < minimumSyncSec → s = a.syncSec))
      ∧ ({ } : Args).syncSec = 30 := by
  refine ⟨?_, rfl⟩
  cases h0 : a.logout with
  | true =>
      cases h3 : a.unmount with
      | true =>
          obtain ⟨-, -, hf, -⟩ := runMain_early a w (Or.inr (Or.inr h3))
          rw [hf] at h
          exact absurd h (by simp)
      | false =>
          obtain ⟨-, -, hf, -⟩ := runMain_early a w (Or.inl ⟨h0, h3⟩)
          rw [hf] at h
          exact absurd h (by simp)
  | false =>
      cases h2 : strTruthy a.mountpoint with
      | false =>
          obtain ⟨-, -, hf, -⟩ := runMain_early a w (Or.inr (Or.inl h2))
          rw [hf] at h
          exact absurd h (by simp)
      | true =>
          cases h3 : a.unmount with
          | true =>
              obtain ⟨-, -, hf, -⟩ := runMain_early a w (Or.inr (Or.inr h3))
              rw [hf] at h
              exact absurd h (by simp)
          | false =>
              rcases hurl : chooseSyncUrl a (loadedCfg a w) with _ | url
              · rw [runMain_urlCrash a w h0 h2 h3 hurl] at h
                exact absurd h (by simp)
              · rw [runMain_main a w url h0 h2 h3 hurl] at h ⊢
                obtain ⟨t, ht, hf⟩ := loginPhase_extends a w (entryRec a w url)
                  (flooredSyncSec a) (loadedCfg a w) (loadedCreds a w) url
                rcases hf with hf | hf
                · rw [hf] at h
                  exact absurd h (by simp [entryRec])
                · rw [hf] at h
                  have hs : flooredSyncSec a = s := (Prod.mk.injEq _ _ _ _ |>.mp
                    (Option.some.inj h)).1
                  constructor
                  · intro hlt
                    refine ⟨by rw [← hs]; simp [flooredSyncSec, hlt], ?_⟩
                    rw [ht]
                    simp [entryRec, noticeEvents, hlt]
                  · intro hge
                    rw [← hs]
                    simp [flooredSyncSec, hge]

/-- Witness for C2: a concrete run with `--sync-sec 3` mounts with
interval 5 and the notice printed. -/
theorem sync_sec_floor_enforced_witness :
    (runMain { mountpoint := some "m", username := some "u", password := some "p",
               syncSec := 3 }
        { server := ⟨fun _ => .ok [("mk", "1")], fun _ => .ok ()⟩ }).fuseArgs
        = some (5, ".txt")
      ∧ (((3 : Int) < minimumSyncSec →
            (5 : Int) = minimumSyncSec ∧ Ev.printedMsg syncSecNotice ∈
              (runMain { mountpoint := some "m", username := some "u",
                         password := some "p", syncSec := 3 }
                { server := ⟨fun _ => .ok [("mk", "1")], fun _ => .ok ()⟩ }).events)
          ∧ (¬ (3 : Int) < minimumSyncSec → (5 : Int) = 3))
          ∧ ({ } : Args).syncSec = 30 :=
  ⟨by decide, sync_sec_floor_enforced
    { mountpoint := some "m", username := some "u", password := some "p", syncSec := 3 }
    { server := ⟨fun _ => .ok [("mk", "1")], fun _ => .ok ()⟩ } 5 ".txt" (by decide)⟩

/-- C10 counterexample: with `--sync-url ""` given on the command line and a
config file supplying a sync URL, the chosen URL is the config value, not
the given command-line value (an empty string is falsy in Python). -/
theorem sync_url_precedence_counterexample :
    (runMain
        { mountpoint := some "m", username := some "u", password := some "p",
          syncUrl := some "" }
        { configFile := some ⟨[], [("user", [("sync_url", "http://x")])]⟩,
          server := ⟨fun _ => .ok [("k", "v")], fun _ => .ok ()⟩ }).usedSyncUrl
        = some "http://x"
      ∧ ¬ (runMain
        { mountpoint := some "m", username := some "u", password := some "p",
          syncUrl := some "" }
        { configFile := some ⟨[], [("user", [("sync_url", "http://x")])]⟩,
          server := ⟨fun _ => .ok [("k", "v")], fun _ => .ok ()⟩ }).usedSyncUrl
        = some "" := by
  constructor <;> decide

/-- C10 (amended): the sync URL precedence is the command-line value when
given and nonempty, else the config file value when present (interpolated),
else the official server URL. -/
theorem sync_url_precedence (a : Args) (w : World) (u : String)
    (h : (runMain a w).usedSyncUrl = some u) :
    (∀ s, a.syncUrl = some s → s ≠ "" → u = s)
      ∧ (strTruthy a.syncUrl = false →
          (hasOption (loadedCfg a w) "user" "sync_url" = true →
            getOpt (loadedCfg a w) "user" "sync_url" = some u)
          ∧ (hasOption (loadedCfg a w) "user" "sync_url" = false →
            u = officialServerUrl)) := by
  rcases runMain_split a w with ⟨-, -, -, hnone, -⟩ | ⟨url, -, -, -, hurl, heq⟩
  · rw [hnone] at h
    cases h
  · rw [heq, loginPhase_preserve_url] at h
    have hu : url = u := by simpa [entryRec] using h
    subst hu
    unfold chooseSyncUrl at hurl
    constructor
    · intro s hs hne
      rw [hs] at hurl
      simp [strTruthy, hne] at hurl
      exact hurl.symm
    · intro hfalse
      rw [hfalse] at hurl
      simp only [Bool.false_eq_true, if_false] at hurl
      constructor
      · intro hopt
        rw [hopt] at hurl
        simpa using hurl
      · intro hnopt
        rw [hnopt] at hurl
        simpa using hurl.symm

/-- Witness for C10 at a concrete run that falls back to the official URL. -/
theorem sync_url_precedence_witness :
    (runMain argsUP worldOK).usedSyncUrl = some officialServerUrl
      ∧ ((∀ s, argsUP.syncUrl = some s → s ≠ "" → officialServerUrl = s)
          ∧ (strTruthy argsUP.syncUrl = false →
              (hasOption (loadedCfg argsUP worldOK) "user" "sync_url" = true →
                getOpt (loadedCfg argsUP worldOK) "user" "sync_url" = some officialServerUrl)
              ∧ (hasOption (loadedCfg argsUP worldOK) "user" "sync_url" = false →
                officialServerUrl = officialServerUrl))) :=
  ⟨by decide, sync_url_precedence argsUP worldOK officialServerUrl (by decide)⟩

theorem not_mem_noticeEvents (a : Args) (e : Ev) (h : ∀ s, e ≠ Ev.printedMsg s) :
    e ∉ noticeEvents a :=
  fun hm => h _ (noticeEvents_only a e hm)

theorem not_mem_promptUserEvents (a : Args) (e : Ev) (h : e ≠ Ev.promptUser) :
    e ∉ promptUserEvents a :=
  fun hm => h (promptUserEvents_only a e hm)

theorem not_mem_promptPassEvents (a : Args) (e : Ev) (h : e ≠ Ev.promptPass) :
    e ∉ promptPassEvents a :=
  fun hm => h (promptPassEvents_only a e hm)

/-- C1 (amended): when the server rejects the credentials at sign-in
(`SNAPIException`), the diagnostic is printed and no FUSE mount is
constructed, but the process then completes normally with exit status 0
(`print(e)` at line 210 does not exit). -/
theorem auth_rejection_behavior (a : Args) (w : World) (k : List (String × String)) (m : String)
    (hk : (runMain a w).usedKeys = some k)
    (hrej : w.server.signIn k = .snapi m) :
    Ev.printedMsg m ∈ (runMain a w).events
      ∧ Ev.mount ∉ (runMain a w).events
      ∧ (runMain a w).exit = ExitKind.finished := by
  rcases runMain_split a w with ⟨hnone, -⟩ | ⟨url, -, -, -, -, heq⟩
  · rw [hnone] at hk
    cases hk
  · rw [heq] at hk ⊢
    rcases loginPhase_cases a w (entryRec a w url) (flooredSyncSec a)
        (loadedCfg a w) (loadedCreds a w) url with
      hlp | ⟨un, -, -, -, hlp⟩ | ⟨un, ks, -, -, -, hks, hlp⟩ | ⟨ks, -, hg, hlp⟩
        | ⟨m0, -, hg, hlp⟩ | ⟨-, hg, hlp⟩ | ⟨-, hg, hlp⟩
    · rw [hlp] at hk
      exact absurd hk (by simp [entryRec])
    · rw [hlp] at hk
      exact absurd hk (by simp [entryRec])
    · rw [hlp] at hk ⊢
      rcases signInStep_cases a w { entryRec a w url with usedUsername := some un }
          (flooredSyncSec a) (loadedCfg a w) (loadedCreds a w) url un ks with
        ⟨hsi, -, hss⟩ | ⟨c2, d2, hsi, -, -, -, hss⟩ | ⟨hsi, -, -, hss⟩
          | ⟨c2, hsi, -, -, -, hss⟩ | ⟨m0, hsi, hss⟩ | ⟨hsi, hss⟩ | ⟨hsi, hss⟩
      all_goals rw [hss] at hk ⊢
      all_goals have hkk : ks = k := by simpa [mountStep_eq, entryRec] using hk
      all_goals rw [hkk] at hsi
      all_goals rw [hsi] at hrej
      · cases hrej
      · cases hrej
      · cases hrej
      · cases hrej
      · have hm : m0 = m := by cases hrej; rfl
        subst hm
        refine ⟨by simp [entryRec], ?_, by simp [entryRec]⟩
        intro hmem
        simp only [entryRec, List.mem_append] at hmem
        rcases hmem with h | h
        · exact not_mem_noticeEvents a Ev.mount (by simp) (by simpa using h)
        · simp at h
      · cases hrej
      · cases hrej
    · rw [hlp] at hk ⊢
      rcases signInStep_cases a w
          { entryRec a w url with
              usedUsername := some (promptedUsername a w),
              genKeysArg := some (promptedPassword a w),
              events := (entryRec a w url).events ++ promptUserEvents a
                ++ promptPassEvents a ++ [Ev.genKeysCall, Ev.delPassword] }
          (flooredSyncSec a) (loadedCfg a w) (loadedCreds a w) url
          (promptedUsername a w) ks with
        ⟨hsi, -, hss⟩ | ⟨c2, d2, hsi, -, -, -, hss⟩ | ⟨hsi, -, -, hss⟩
          | ⟨c2, hsi, -, -, -, hss⟩ | ⟨m0, hsi, hss⟩ | ⟨hsi, hss⟩ | ⟨hsi, hss⟩
      all_goals rw [hss] at hk ⊢
      all_goals have hkk : ks = k := by simpa [mountStep_eq, entryRec] using hk
      all_goals rw [hkk] at hsi
      all_goals rw [hsi] at hrej
      · cases hrej
      · cases hrej
      · cases hrej
      · cases hrej
      · have hm : m0 = m := by cases hrej; rfl
        subst hm
        refine ⟨by simp [entryRec], ?_, by simp [entryRec]⟩
        intro hmem
        simp only [entryRec, List.mem_append] at hmem
        rcases hmem with (((h | h) | h) | h) | h
        · exact not_mem_noticeEvents a Ev.mount (by simp) (by simpa using h)
        · exact not_mem_promptUserEvents a Ev.mount (by simp) h
        · exact not_mem_promptPassEvents a Ev.mount (by simp) h
        · simp at h
        · simp at h
      · cases hrej
      · cases hrej
    · rw [hlp] at hk
      exact absurd hk (by simp [entryRec])
    · rw [hlp] at hk
      exact absurd hk (by simp [entryRec])
    · rw [hlp] at hk
      exact absurd hk (by simp [entryRec])

/-- C1 counterexample: a concrete run whose sign-in is rejected prints the
diagnostic and constructs no mount, yet falls off the end of `main` with
exit status 0 — refuting the claimed non-zero exit status. -/
theorem auth_rejection_exit_counterexample :
    Ev.printedMsg "Invalid email or password." ∈ (runMain argsUP worldRej).events
      ∧ Ev.mount ∉ (runMain argsUP worldRej).events
      ∧ (runMain argsUP worldRej).exit = ExitKind.finished := by
  decide

/-- Witness for C1 (amended) at the same concrete rejected run. -/
theorem auth_rejection_behavior_witness :
    ((runMain argsUP worldRej).usedKeys = some [("mk", "1")]
        ∧ worldRej.server.signIn [("mk", "1")] = .snapi "Invalid email or password.")
      ∧ (Ev.printedMsg "Invalid email or password." ∈ (runMain argsUP worldRej).events
          ∧ Ev.mount ∉ (runMain argsUP worldRej).events
          ∧ (runMain argsUP worldRej).exit = ExitKind.finished) :=
  ⟨⟨by decide, rfl⟩,
    auth_rejection_behavior argsUP worldRej [("mk", "1")] "Invalid email or password."
      (by decide) rfl⟩

/-- C4: when the transport to the sync server fails during login (a
`ConnectionError` from `gen_keys` or `sign_in`), the process prints a
diagnostic naming the sync URL and exits with status 1, without
constructing any mount. -/
theorem conn_error_exits_one (a : Args) (w : World) (p : String)
    (k : List (String × String))
    (hfail : ((runMain a w).genKeysArg = some p ∧ w.server.genKeys p = .connErr)
      ∨ ((runMain a w).usedKeys = some k ∧ w.server.signIn k = .connErr)) :
    ∃ url, (runMain a w).usedSyncUrl = some url
      ∧ Ev.printedMsg (connErrMsg url) ∈ (runMain a w).events
      ∧ (runMain a w).exit = ExitKind.exited 1
      ∧ Ev.mount ∉ (runMain a w).events := by
  rcases runMain_split a w with ⟨hk0, hg0, -⟩ | ⟨url, -, -, -, -, heq⟩
  · rcases hfail with ⟨hga, -⟩ | ⟨hka, -⟩
    · rw [hg0] at hga
      cases hga
    · rw [hk0] at hka
      cases hka
  · rw [heq] at hfail ⊢
    rcases loginPhase_cases a w (entryRec a w url) (flooredSyncSec a)
        (loadedCfg a w) (loadedCreds a w) url with
      hlp | ⟨un, -, -, -, hlp⟩ | ⟨un, ks, -, -, -, hks, hlp⟩ | ⟨ks, -, hg, hlp⟩
        | ⟨m0, -, hg, hlp⟩ | ⟨-, hg, hlp⟩ | ⟨-, hg, hlp⟩
    · rw [hlp] at hfail ⊢
      rcases hfail with ⟨hga, -⟩ | ⟨hka, -⟩
      · exact absurd hga (by simp [entryRec])
      · exact absurd hka (by simp [entryRec])
    · rw [hlp] at hfail ⊢
      rcases hfail with ⟨hga, -⟩ | ⟨hka, -⟩
      · exact absurd hga (by simp [entryRec])
      · exact absurd hka (by simp [entryRec])
    · rw [hlp] at hfail ⊢
      rcases signInStep_cases a w { entryRec a w url with usedUsername := some un }
          (flooredSyncSec a) (loadedCfg a w) (loadedCreds a w) url un ks with
        ⟨hsi, -, hss⟩ | ⟨c2, d2, hsi, -, -, -, hss⟩ | ⟨hsi, -, -, hss⟩
          | ⟨c2, hsi, -, -, -, hss⟩ | ⟨m0, hsi, hss⟩ | ⟨hsi, hss⟩ | ⟨hsi, hss⟩
      all_goals rw [hss] at hfail ⊢
      all_goals rcases hfail with ⟨hga, hgc⟩ | ⟨hka, hkc⟩
      all_goals try exact absurd hga (by simp [mountStep_eq, entryRec])
      all_goals have hkk : ks = k := by simpa [mountStep_eq, entryRec] using hka
      all_goals rw [hkk] at hsi
      all_goals rw [hsi] at hkc
      · cases hkc
      · cases hkc
      · cases hkc
      · cases hkc
      · cases hkc
      · refine ⟨url, by simp [entryRec], by simp [entryRec], by simp [entryRec], ?_⟩
        intro hmem
        simp only [entryRec, List.mem_append] at hmem
        rcases hmem with h | h
        · exact not_mem_noticeEvents a Ev.mount (by simp) (by simpa using h)
        · simp at h
      · cases hkc
    · rw [hlp] at hfail ⊢
      rcases signInStep_cases a w
          { entryRec a w url with
              usedUsername := some (promptedUsername a w),
              genKeysArg := some (promptedPassword a w),
              events := (entryRec a w url).events ++ promptUserEvents a
                ++ promptPassEvents a ++ [Ev.genKeysCall, Ev.delPassword] }
          (flooredSyncSec a) (loadedCfg a w) (loadedCreds a w) url
          (promptedUsername a w) ks with
        ⟨hsi, -, hss⟩ | ⟨c2, d2, hsi, -, -, -, hss⟩ | ⟨hsi, -, -, hss⟩
          | ⟨c2, hsi, -, -, -, hss⟩ | ⟨m0, hsi, hss⟩ | ⟨hsi, hss⟩ | ⟨hsi, hss⟩
      all_goals rw [hss] at hfail ⊢
      all_goals rcases hfail with ⟨hga, hgc⟩ | ⟨hka, hkc⟩
      all_goals try
        first
          | (have hpp : promptedPassword a w = p := by
              simpa [mountStep_eq, entryRec] using hga
             rw [hpp] at hg
             rw [hg] at hgc
             cases hgc)
      all_goals have hkk : ks = k := by simpa [mountStep_eq, entryRec] using hka
      all_goals rw [hkk] at hsi
      all_goals rw [hsi] at hkc
      · cases hkc
      · cases hkc
      · cases hkc
      · cases hkc
      · cases hkc
      · refine ⟨url, by simp [entryRec], by simp [entryRec], by simp [entryRec], ?_⟩
        intro hmem
        simp only [entryRec, List.mem_append] at hmem
        rcases hmem with (((h | h) | h) | h) | h
        · exact not_mem_noticeEvents a Ev.mount (by simp) (by simpa using h)
        · exact not_mem_promptUserEvents a Ev.mount (by simp) h
        · exact not_mem_promptPassEvents a Ev.mount (by simp) h
        · simp at h
        · simp at h
      · cases hkc
    · rw [hlp] at hfail ⊢
      rcases hfail with ⟨hga, hgc⟩ | ⟨hka, -⟩
      · have hpp : promptedPassword a w = p := by simpa [entryRec] using hga
        rw [hpp] at hg
        rw [hg] at hgc
        cases hgc
      · exact absurd hka (by simp [entryRec])
    · rw [hlp] at hfail ⊢
      rcases hfail with ⟨hga, hgc⟩ | ⟨hka, -⟩
      · refine ⟨url, by simp [entryRec], by simp [entryRec], by simp [entryRec], ?_⟩
        intro hmem
        simp only [entryRec, List.mem_append] at hmem
        rcases hmem with ((h | h) | h) | h
        · exact not_mem_noticeEvents a Ev.mount (by simp) (by simpa using h)
        · exact not_mem_promptUserEvents a Ev.mount (by simp) h
        · exact not_mem_promptPassEvents a Ev.mount (by simp) h
        · simp at h
      · exact absurd hka (by simp [entryRec])
    · rw [hlp] at hfail ⊢
      rcases hfail with ⟨hga, hgc⟩ | ⟨hka, -⟩
      · have hpp : promptedPassword a w = p := by simpa [entryRec] using hga
        rw [hpp] at hg
        rw [hg] at hgc
        cases hgc
      · exact absurd hka (by simp [entryRec])

/-- Witness for C4 at a concrete run whose sign-in hits a connection
error. -/
theorem conn_error_exits_one_witness :
    ((runMain argsUP worldConn).usedKeys = some [("mk", "1")]
        ∧ worldConn.server.signIn [("mk", "1")] = .connErr)
      ∧ (∃ url, (runMain argsUP worldConn).usedSyncUrl = some url
          ∧ Ev.printedMsg (connErrMsg url) ∈ (runMain argsUP worldConn).events
          ∧ (runMain argsUP worldConn).exit = ExitKind.exited 1
          ∧ Ev.mount ∉ (runMain argsUP worldConn).events) :=
  ⟨⟨by decide, rfl⟩,
    conn_error_exits_one argsUP worldConn "" [("mk", "1")] (Or.inr ⟨by decide, rfl⟩)⟩

/-- C8 counterexample: a login failure by `ConnectionError` calls
`sys.exit(1)` (line 214) before the write-back block, so neither file is
opened for writing or emptied: the previously stored username and cached
keys survive on disk, refuting the claim for every failed login. -/
theorem conn_error_leaves_files_counterexample :
    argsUP.noConfigFiles = false
      ∧ (runMain argsUP
          { configFile := some ⟨[], [("user", [("username", "old")])]⟩,
            credsFile := some ⟨[], [("keys", [("mk", "1")])]⟩,
            server := ⟨fun _ => .ok [("mk", "1")], fun _ => .connErr⟩ }).exit
          = ExitKind.exited 1
      ∧ (runMain argsUP
          { configFile := some ⟨[], [("user", [("username", "old")])]⟩,
            credsFile := some ⟨[], [("keys", [("mk", "1")])]⟩,
            server := ⟨fun _ => .ok [("mk", "1")], fun _ => .connErr⟩ }).configFileAfter
          = some ⟨[], [("user", [("username", "old")])]⟩
      ∧ (runMain argsUP
          { configFile := some ⟨[], [("user", [("username", "old")])]⟩,
            credsFile := some ⟨[], [("keys", [("mk", "1")])]⟩,
            server := ⟨fun _ => .ok [("mk", "1")], fun _ => .connErr⟩ }).credsFileAfter
          = some ⟨[], [("keys", [("mk", "1")])]⟩
      ∧ some (⟨[], [("user", [("username", "old")])]⟩ : ConfigState) ≠ some emptyConfig
      ∧ some (⟨[], [("keys", [("mk", "1")])]⟩ : ConfigState) ≠ some emptyConfig := by
  decide

/-- C8 (amended): in a run without `--no-config-files` whose login attempt
is rejected (`SNAPIException` from `gen_keys` or `sign_in`), both the
config file and the creds file are opened for writing and left empty:
previously stored username, sync URL and cached keys are erased.  Login
failures by `ConnectionError`/`MissingSchema` instead exit before the
write-back and leave both files untouched. -/
theorem failed_login_clears_files (a : Args) (w : World) (p : String)
    (k : List (String × String)) (m : String)
    (hn : a.noConfigFiles = false)
    (hfail : ((runMain a w).genKeysArg = some p ∧ w.server.genKeys p = .snapi m)
      ∨ ((runMain a w).usedKeys = some k ∧ w.server.signIn k = .snapi m)) :
    (runMain a w).configFileAfter = some emptyConfig
      ∧ (runMain a w).credsFileAfter = some emptyConfig := by
  rcases runMain_split a w with ⟨hk0, hg0, -⟩ | ⟨url, -, -, -, -, heq⟩
  · rcases hfail with ⟨hga, -⟩ | ⟨hka, -⟩
    · rw [hg0] at hga
      cases hga
    · rw [hk0] at hka
      cases hka
  · rw [heq] at hfail ⊢
    rcases loginPhase_cases a w (entryRec a w url) (flooredSyncSec a)
        (loadedCfg a w) (loadedCreds a w) url with
      hlp | ⟨un, -, -, -, hlp⟩ | ⟨un, ks, -, -, -, hks, hlp⟩ | ⟨ks, -, hg, hlp⟩
        | ⟨m0, -, hg, hlp⟩ | ⟨-, hg, hlp⟩ | ⟨-, hg, hlp⟩
    · rw [hlp] at hfail ⊢
      rcases hfail with ⟨hga, -⟩ | ⟨hka, -⟩
      · exact absurd hga (by simp [entryRec])
      · exact absurd hka (by simp [entryRec])
    · rw [hlp] at hfail ⊢
      rcases hfail with ⟨hga, -⟩ | ⟨hka, -⟩
      · exact absurd hga (by simp [entryRec])
      · exact absurd hka (by simp [entryRec])
    · rw [hlp] at hfail ⊢
      rcases signInStep_cases a w { entryRec a w url with usedUsername := some un }
          (flooredSyncSec a) (loadedCfg a w) (loadedCreds a w) url un ks with
        ⟨hsi, hnn, hss⟩ | ⟨c2, d2, hsi, -, -, -, hss⟩ | ⟨hsi, -, -, hss⟩
          | ⟨c2, hsi, -, -, -, hss⟩ | ⟨m0, hsi, hss⟩ | ⟨hsi, hss⟩ | ⟨hsi, hss⟩
      all_goals rw [hss] at hfail ⊢
      all_goals rcases hfail with ⟨hga, hgc⟩ | ⟨hka, hkc⟩
      all_goals try exact absurd hga (by simp [mountStep_eq, entryRec])
      all_goals have hkk : ks = k := by simpa [mountStep_eq, entryRec] using hka
      all_goals rw [hkk] at hsi
      all_goals rw [hsi] at hkc
      · cases hkc
      · cases hkc
      · cases hkc
      · cases hkc
      · simp [entryRec, hn]
      · cases hkc
      · cases hkc
    · rw [hlp] at hfail ⊢
      rcases signInStep_cases a w
          { entryRec a w url with
              usedUsername := some (promptedUsername a w),
              genKeysArg := some (promptedPassword a w),
              events := (entryRec a w url).events ++ promptUserEvents a
                ++ promptPassEvents a ++ [Ev.genKeysCall, Ev.delPassword] }
          (flooredSyncSec a) (loadedCfg a w) (loadedCreds a w) url
          (promptedUsername a w) ks with
        ⟨hsi, -, hss⟩ | ⟨c2, d2, hsi, -, -, -, hss⟩ | ⟨hsi, -, -, hss⟩
          | ⟨c2, hsi, -, -, -, hss⟩ | ⟨m0, hsi, hss⟩ | ⟨hsi, hss⟩ | ⟨hsi, hss⟩
      all_goals rw [hss] at hfail ⊢
      all_goals rcases hfail with ⟨hga, hgc⟩ | ⟨hka, hkc⟩
      all_goals try
        first
          | (have hpp : promptedPassword a w = p := by
              simpa [mountStep_eq, entryRec] using hga
             rw [hpp] at hg
             rw [hg] at hgc
             cases hgc)
      all_goals have hkk : ks = k := by simpa [mountStep_eq, entryRec] using hka
      all_goals rw [hkk] at hsi
      all_goals rw [hsi] at hkc
      · cases hkc
      · cases hkc
      · cases hkc
      · cases hkc
      · simp [entryRec, hn]
      · cases hkc
      · cases hkc
    · rw [hlp] at hfail ⊢
      rcases hfail with ⟨hga, hgc⟩ | ⟨hka, -⟩
      · simp [entryRec, hn]
      · exact absurd hka (by simp [entryRec])
    · rw [hlp] at hfail ⊢
      rcases hfail with ⟨hga, hgc⟩ | ⟨hka, -⟩
      · have hpp : promptedPassword a w = p := by simpa [entryRec] using hga
        rw [hpp] at hg
        rw [hg] at hgc
        cases hgc
      · exact absurd hka (by simp [entryRec])
    · rw [hlp] at hfail ⊢
      rcases hfail with ⟨hga, hgc⟩ | ⟨hka, -⟩
      · have hpp : promptedPassword a w = p := by simpa [entryRec] using hga
        rw [hpp] at hg
        rw [hg] at hgc
        cases hgc
      · exact absurd hka (by simp [entryRec])

/-- Witness for C8 at a concrete rejected run: both files end up empty. -/
theorem failed_login_clears_files_witness :
    (argsUP.noConfigFiles = false
        ∧ ((runMain argsUP worldRej).usedKeys = some [("mk", "1")]
            ∧ worldRej.server.signIn [("mk", "1")] = .snapi "Invalid email or password."))
      ∧ ((runMain argsUP worldRej).configFileAfter = some emptyConfig
          ∧ (runMain argsUP worldRej).credsFileAfter = some emptyConfig) :=
  ⟨⟨rfl, by decide, rfl⟩,
    failed_login_clears_files argsUP worldRej "" [("mk", "1")]
      "Invalid email or password." rfl (Or.inr ⟨by decide, rfl⟩)⟩

theorem promptUser_not_mem_notice (a : Args) : Ev.promptUser ∉ noticeEvents a :=
  not_mem_noticeEvents a _ (by simp)

theorem promptPass_not_mem_notice (a : Args) : Ev.promptPass ∉ noticeEvents a :=
  not_mem_noticeEvents a _ (by simp)

theorem genKeysCall_not_mem_notice (a : Args) : Ev.genKeysCall ∉ noticeEvents a :=
  not_mem_noticeEvents a _ (by simp)

theorem mount_not_mem_notice (a : Args) : Ev.mount ∉ noticeEvents a :=
  not_mem_noticeEvents a _ (by simp)

/-- C3 (amended): when the config file supplies a username, the creds file
supplies a NONEMPTY keys section whose stored values interpolate cleanly,
and neither `--username` nor `--password` was given, the program neither
prompts nor derives keys: sign-in is performed with the cached mapping
alone. -/
theorem cached_login_no_prompt_no_derivation (a : Args) (w : World) (url un : String)
    (ks : List (String × String))
    (h0 : a.logout = false) (h2 : strTruthy a.mountpoint = true) (h3 : a.unmount = false)
    (hurl : chooseSyncUrl a (loadedCfg a w) = some url)
    (hopt : hasOption (loadedCfg a w) "user" "username" = true)
    (hsec : hasSection (loadedCreds a w) "keys" = true)
    (huser : a.username = none) (hpass : a.password = none)
    (hu : getOpt (loadedCfg a w) "user" "username" = some un)
    (hks : itemsInterp (loadedCreds a w) "keys" = some ks)
    (hne : ks ≠ []) :
    Ev.promptUser ∉ (runMain a w).events
      ∧ Ev.promptPass ∉ (runMain a w).events
      ∧ Ev.genKeysCall ∉ (runMain a w).events
      ∧ (runMain a w).genKeysArg = none
      ∧ (runMain a w).usedKeys = some ks
      ∧ (runMain a w).usedUsername = some un
      ∧ Ev.signInCall ∈ (runMain a w).events := by
  have hc : cachedCond a (loadedCfg a w) (loadedCreds a w) = true := by
    simp [cachedCond, hopt, hsec, huser, hpass, strTruthy]
  rw [runMain_main a w url h0 h2 h3 hurl,
    loginPhase_cached a w (entryRec a w url) (flooredSyncSec a)
      (loadedCfg a w) (loadedCreds a w) url un ks hc hu hks,
    doLogin_cached_nonempty a w _ (flooredSyncSec a)
      (loadedCfg a w) (loadedCreds a w) url un none ks hne]
  rcases signInStep_cases a w { entryRec a w url with usedUsername := some un }
      (flooredSyncSec a) (loadedCfg a w) (loadedCreds a w) url un ks with
    ⟨hsi, -, hss⟩ | ⟨c2, d2, hsi, -, -, -, hss⟩ | ⟨hsi, -, -, hss⟩
      | ⟨c2, hsi, -, -, -, hss⟩ | ⟨m0, hsi, hss⟩ | ⟨hsi, hss⟩ | ⟨hsi, hss⟩
  all_goals rw [hss]
  all_goals simp [mountStep_eq, entryRec, List.mem_append,
    promptUser_not_mem_notice, promptPass_not_mem_notice, genKeysCall_not_mem_notice]

/-- C3 counterexample: with a keys section PRESENT BUT EMPTY the cached
branch is taken, `if not keys:` succeeds, and evaluating
`sn_api.gen_keys(password)` raises `UnboundLocalError` (the `password`
variable was never bound): sign-in is not performed with the cached
KeySet. -/
theorem cached_empty_keys_counterexample :
    (hasOption
        (loadedCfg { mountpoint := some "m" }
          { configFile := some ⟨[], [("user", [("username", "u")])]⟩,
            credsFile := some ⟨[], [("keys", [])]⟩,
            server := okKeysServer [] })
        "user" "username" = true
      ∧ hasSection
          (loadedCreds { mountpoint := some "m" }
            { configFile := some ⟨[], [("user", [("username", "u")])]⟩,
              credsFile := some ⟨[], [("keys", [])]⟩,
              server := okKeysServer [] }) "keys" = true)
      ∧ (runMain { mountpoint := some "m" }
          { configFile := some ⟨[], [("user", [("username", "u")])]⟩,
            credsFile := some ⟨[], [("keys", [])]⟩,
            server := okKeysServer [] }).exit = ExitKind.crashed "UnboundLocalError"
      ∧ Ev.signInCall ∉ (runMain { mountpoint := some "m" }
          { configFile := some ⟨[], [("user", [("username", "u")])]⟩,
            credsFile := some ⟨[], [("keys", [])]⟩,
            server := okKeysServer [] }).events := by
  decide

/-- Witness for C3 (amended) at a concrete cached run. -/
theorem cached_login_no_prompt_no_derivation_witness :
    (chooseSyncUrl argsPlain (loadedCfg argsPlain worldCached) = some "http://s"
        ∧ itemsInterp (loadedCreds argsPlain worldCached) "keys" = some [("mk", "1")]
        ∧ argsPlain.username = none ∧ argsPlain.password = none)
      ∧ (Ev.promptUser ∉ (runMain argsPlain worldCached).events
          ∧ Ev.promptPass ∉ (runMain argsPlain worldCached).events
          ∧ Ev.genKeysCall ∉ (runMain argsPlain worldCached).events
          ∧ (runMain argsPlain worldCached).genKeysArg = none
          ∧ (runMain argsPlain worldCached).usedKeys = some [("mk", "1")]
          ∧ (runMain argsPlain worldCached).usedUsername = some "u"
          ∧ Ev.signInCall ∈ (runMain argsPlain worldCached).events) :=
  ⟨⟨by decide, by decide, rfl, rfl⟩,
    cached_login_no_prompt_no_derivation argsPlain worldCached "http://s" "u"
      [("mk", "1")] rfl (by decide) rfl (by decide) (by decide) (by decide) rfl rfl
      (by decide) (by decide) (by decide)⟩

/-- C5 counterexample: a derived keys mapping with an uppercase key name
is written back lowercased (read_dict applies optionxform), so the second
run recovers a different mapping. -/
theorem keys_roundtrip_counterexample :
    (runMain argsUP worldUpper).usedKeys = some [("AK", "v")]
      ∧ (runMain { mountpoint := some "m" }
          { configFile := (runMain argsUP worldUpper).configFileAfter,
            credsFile := (runMain argsUP worldUpper).credsFileAfter,
            server := okKeysServer [] }).usedKeys = some [("ak", "v")]
      ∧ ([("AK", "v")] : List (String × String)) ≠ [("ak", "v")] := by
  decide

/-- C5 (amended): the keys mapping round-trips through the creds file
exactly when its key names are already lowercase (ConfigParser lowercases
option names via optionxform) and distinct, and names and values survive
writing (no interpolation syntax, no newline, no edge whitespace): then a
second run recovers exactly the written mapping and signs in with it,
whatever its server does. -/
theorem keys_roundtrip (u p : String) (ks : List (String × String)) (srv2 : Server)
    (hu : u ≠ "") (hp : p ≠ "")
    (husafe : writeSafeVal u = true)
    (hne : ks ≠ [])
    (hlow : ∀ kv ∈ ks, optionxform kv.1 = kv.1)
    (hnd : (ks.map Prod.fst).Nodup)
    (hsafe : ∀ kv ∈ ks, writeSafeVal kv.2 = true) :
    (runMain { mountpoint := some "m", username := some u, password := some p } { server := okKeysServer ks }).usedKeys = some ks
      ∧ (runMain { mountpoint := some "m", username := some u, password := some p } { server := okKeysServer ks }).configFileAfter
          = some ⟨[], [("user", [("sync_url", officialServerUrl), ("username", u)])]⟩
      ∧ (runMain { mountpoint := some "m", username := some u, password := some p } { server := okKeysServer ks }).credsFileAfter = some ⟨[], [("keys", ks)]⟩
      ∧ (runMain { mountpoint := some "m" }
          { configFile :=
              some ⟨[], [("user", [("sync_url", officialServerUrl), ("username", u)])]⟩,
            credsFile := some ⟨[], [("keys", ks)]⟩,
            server := srv2 }).usedKeys = some ks := by
  have hplainU : ∀ c ∈ u.data, c ≠ '%' := writeSafe_plain u husafe
  have hxcfg : ∀ kv ∈ [("sync_url", officialServerUrl), ("username", u)],
      optionxform kv.1 = kv.1 ∧ beforeSetOk kv.2 = true := by
    intro kv hkv
    simp only [List.mem_cons, List.not_mem_nil, or_false] at hkv
    rcases hkv with h | h <;> subst h
    · exact ⟨by decide, by decide⟩
    · exact ⟨rfl, beforeSetOk_plain u hplainU⟩
  have h1 : readDictSection emptyConfig "user"
      [("sync_url", officialServerUrl), ("username", u)]
      = some ⟨[], [("user", [("sync_url", officialServerUrl), ("username", u)])]⟩ :=
    readDictSection_empty _ _ hxcfg (by simp)
  have hxks : ∀ kv ∈ ks, optionxform kv.1 = kv.1 ∧ beforeSetOk kv.2 = true :=
    fun kv hkv => ⟨hlow kv hkv,
      beforeSetOk_plain _ (writeSafe_plain _ (hsafe kv hkv))⟩
  have h2 : readDictSection emptyConfig "keys" ks = some ⟨[], [("keys", ks)]⟩ :=
    readDictSection_empty _ _ hxks hnd
  have hpu : promptedUsername { mountpoint := some "m", username := some u, password := some p } { server := okKeysServer ks } = u := by
    simp [promptedUsername, hu]
  have hpue : promptUserEvents { mountpoint := some "m", username := some u, password := some p } = [] := by
    simp [promptUserEvents, hu]
  have hpp : promptedPassword { mountpoint := some "m", username := some u, password := some p } { server := okKeysServer ks } = p := by
    simp [promptedPassword, hp]
  have hppe : promptPassEvents { mountpoint := some "m", username := some u, password := some p } = [] := by
    simp [promptPassEvents, hp]
  have hrun1 : runMain { mountpoint := some "m", username := some u, password := some p } { server := okKeysServer ks } =
      mountStep { mountpoint := some "m", username := some u, password := some p } { server := okKeysServer ks }
        { entryRec { mountpoint := some "m", username := some u, password := some p } { server := okKeysServer ks } officialServerUrl with
            usedUsername := some u,
            genKeysArg := some p,
            events := (entryRec { mountpoint := some "m", username := some u, password := some p } { server := okKeysServer ks } officialServerUrl).events
              ++ [] ++ [] ++ [Ev.genKeysCall, Ev.delPassword]
              ++ [Ev.signInCall, Ev.signInOk],
            usedKeys := some ks,
            configFileAfter := some (removeSection
              ⟨[], [("user", [("sync_url", officialServerUrl), ("username", u)])]⟩ "keys"),
            credsFileAfter := some ⟨[], [("keys", ks)]⟩ }
        (flooredSyncSec { mountpoint := some "m", username := some u, password := some p }) := by
    rw [runMain_main { mountpoint := some "m", username := some u, password := some p } { server := okKeysServer ks } officialServerUrl rfl rfl rfl rfl]
    rw [show loadedCfg { mountpoint := some "m", username := some u, password := some p } { server := okKeysServer ks } = emptyConfig from rfl]
    rw [show loadedCreds { mountpoint := some "m", username := some u, password := some p } { server := okKeysServer ks } = emptyConfig from rfl]
    rw [loginPhase_prompt { mountpoint := some "m", username := some u, password := some p } { server := okKeysServer ks } _ _ emptyConfig emptyConfig _ rfl]
    rw [hpu, hpp, hpue, hppe]
    rw [doLogin_derive_ok { mountpoint := some "m", username := some u, password := some p } { server := okKeysServer ks } _ _ emptyConfig emptyConfig _ u p ks rfl]
    rw [signInStep_ok_files { mountpoint := some "m", username := some u, password := some p } { server := okKeysServer ks } _ _ emptyConfig emptyConfig _ _ _ u ks rfl rfl h1 h2]
  refine ⟨?_, ?_, ?_, ?_⟩
  · rw [hrun1]
    simp [mountStep_eq]
  · rw [hrun1]
    simp [mountStep_eq, removeSection]
  · rw [hrun1]
    simp [mountStep_eq]
  · have hgu : getOpt
        ⟨[], [("user", [("sync_url", officialServerUrl), ("username", u)])]⟩
        "user" "username" = some u := by
      have hraw : getOptRaw
          ⟨[], [("user", [("sync_url", officialServerUrl), ("username", u)])]⟩
          "user" "username" = some u := rfl
      unfold getOpt
      rw [hraw]
      simp [interpValue_plain u hplainU]
    have hitems : itemsInterp (⟨[], [("keys", ks)]⟩ : ConfigState) "keys" = some ks := by
      show interpAll (dictUpdate [] ks) = some ks
      rw [dictUpdate_fresh ks [] (fun kv _ => rfl) hnd]
      simp only [List.nil_append]
      exact interpAll_plain ks
        (fun kv hkv => writeSafe_plain _ (hsafe kv hkv))
    rw [runMain_main { mountpoint := some "m" }
        { configFile :=
              some ⟨[], [("user", [("sync_url", officialServerUrl), ("username", u)])]⟩,
            credsFile := some ⟨[], [("keys", ks)]⟩,
            server := srv2 } officialServerUrl rfl rfl rfl rfl]
    rw [show loadedCfg { mountpoint := some "m" }
        { configFile :=
              some ⟨[], [("user", [("sync_url", officialServerUrl), ("username", u)])]⟩,
            credsFile := some ⟨[], [("keys", ks)]⟩,
            server := srv2 }
        = ⟨[], [("user", [("sync_url", officialServerUrl), ("username", u)])]⟩ from rfl]
    rw [show loadedCreds { mountpoint := some "m" }
        { configFile :=
              some ⟨[], [("user", [("sync_url", officialServerUrl), ("username", u)])]⟩,
            credsFile := some ⟨[], [("keys", ks)]⟩,
            server := srv2 }
        = ⟨[], [("keys", ks)]⟩ from rfl]
    rw [loginPhase_cached { mountpoint := some "m" }
        { configFile :=
              some ⟨[], [("user", [("sync_url", officialServerUrl), ("username", u)])]⟩,
            credsFile := some ⟨[], [("keys", ks)]⟩,
            server := srv2 } _ _
        ⟨[], [("user", [("sync_url", officialServerUrl), ("username", u)])]⟩
        ⟨[], [("keys", ks)]⟩ _ u ks rfl hgu hitems]
    rw [doLogin_cached_nonempty { mountpoint := some "m" }
        { configFile :=
              some ⟨[], [("user", [("sync_url", officialServerUrl), ("username", u)])]⟩,
            credsFile := some ⟨[], [("keys", ks)]⟩,
            server := srv2 } _ _ _ _ _ u none ks hne]
    exact (signInStep_preserve { mountpoint := some "m" }
        { configFile :=
              some ⟨[], [("user", [("sync_url", officialServerUrl), ("username", u)])]⟩,
            credsFile := some ⟨[], [("keys", ks)]⟩,
            server := srv2 } _ _ _ _ _ u ks).2.2.2

/-- Witness for C5 (amended) at a concrete lowercase single-key mapping. -/
theorem keys_roundtrip_witness :
    (writeSafeVal "u" = true ∧ ([("ak", "x")] : List (String × String)) ≠ []
        ∧ (([("ak", "x")] : List (String × String)).map Prod.fst).Nodup)
      ∧ ((runMain { mountpoint := some "m", username := some "u", password := some "p" }
            { server := okKeysServer [("ak", "x")] }).usedKeys = some [("ak", "x")]
          ∧ (runMain { mountpoint := some "m", username := some "u", password := some "p" }
              { server := okKeysServer [("ak", "x")] }).configFileAfter
              = some ⟨[], [("user", [("sync_url", officialServerUrl), ("username", "u")])]⟩
          ∧ (runMain { mountpoint := some "m", username := some "u", password := some "p" }
              { server := okKeysServer [("ak", "x")] }).credsFileAfter
              = some ⟨[], [("keys", [("ak", "x")])]⟩
          ∧ (runMain { mountpoint := some "m" }
              { configFile :=
                  some ⟨[], [("user", [("sync_url", officialServerUrl), ("username", "u")])]⟩,
                credsFile := some ⟨[], [("keys", [("ak", "x")])]⟩,
                server := okKeysServer [] }).usedKeys = some [("ak", "x")]) :=
  ⟨⟨by decide, by decide, by decide⟩,
    keys_roundtrip "u" "p" [("ak", "x")] (okKeysServer []) (by decide) (by decide)
      (by decide) (by decide) (by decide) (by decide) (by decide)⟩

theorem mount_not_mem_promptU (a : Args) : Ev.mount ∉ promptUserEvents a :=
  not_mem_promptUserEvents a _ (by simp)

theorem mount_not_mem_promptP (a : Args) : Ev.mount ∉ promptPassEvents a :=
  not_mem_promptPassEvents a _ (by simp)

theorem c6_nomount {Q : Prop} (E : List Ev) (h : Ev.mount ∉ E) :
    E.count Ev.mount ≤ 1 ∧ (Ev.mount ∈ E → Q) :=
  ⟨by simp [List.count_eq_zero.mpr h], fun hm => absurd hm h⟩

theorem count_decomp (l1 l2 : List Ev) (h1 : Ev.mount ∉ l1) (h2 : Ev.mount ∉ l2) :
    (l1 ++ Ev.mount :: l2).count Ev.mount ≤ 1 := by
  simp [List.count_append, List.count_cons,
    List.count_eq_zero.mpr h1, List.count_eq_zero.mpr h2]

theorem count_decomp2 (E l1 l2 : List Ev) (he : E = l1 ++ Ev.mount :: l2)
    (h1 : Ev.mount ∉ l1) (h2 : Ev.mount ∉ l2) : E.count Ev.mount ≤ 1 :=
  he ▸ count_decomp l1 l2 h1 h2

/-- C6: in every run the FUSE filesystem is constructed at most once, and
only when key material was obtained and sign-in completed successfully;
the successful sign-in strictly precedes the mount in the event order. -/
theorem fuse_mount_once_after_auth (a : Args) (w : World) :
    (runMain a w).events.count Ev.mount ≤ 1
      ∧ (Ev.mount ∈ (runMain a w).events →
          (runMain a w).usedKeys.isSome = true
            ∧ ∃ l1 l2, (runMain a w).events = l1 ++ Ev.mount :: l2
                ∧ Ev.signInCall ∈ l1 ∧ Ev.signInOk ∈ l1
                ∧ Ev.mount ∉ l1 ∧ Ev.mount ∉ l2) := by
  rcases runMain_split a w with ⟨hk0, -, -, -, -, hm0, -⟩ | ⟨url, -, -, -, -, heq⟩
  · exact ⟨by simp [List.count_eq_zero.mpr hm0], fun hm => absurd hm hm0⟩
  · rw [heq]
    rcases loginPhase_cases a w (entryRec a w url) (flooredSyncSec a)
        (loadedCfg a w) (loadedCreds a w) url with
      hlp | ⟨un, -, -, -, hlp⟩ | ⟨un, ks, -, -, -, hks, hlp⟩ | ⟨ks, -, hg, hlp⟩
        | ⟨m0, -, hg, hlp⟩ | ⟨-, hg, hlp⟩ | ⟨-, hg, hlp⟩
    · rw [hlp]
      exact c6_nomount _ (by simp [entryRec, mount_not_mem_notice])
    · rw [hlp]
      exact c6_nomount _ (by simp [entryRec, mount_not_mem_notice])
    · rw [hlp]
      rcases signInStep_cases a w { entryRec a w url with usedUsername := some un }
          (flooredSyncSec a) (loadedCfg a w) (loadedCreds a w) url un ks with
        ⟨hsi, -, hss⟩ | ⟨c2, d2, hsi, -, -, -, hss⟩ | ⟨hsi, -, -, hss⟩
          | ⟨c2, hsi, -, -, -, hss⟩ | ⟨m0, hsi, hss⟩ | ⟨hsi, hss⟩ | ⟨hsi, hss⟩
      all_goals rw [hss]
      · simp only [mountStep_eq]
        have hnm1 : Ev.mount ∉ (entryRec a w url).events ++ [Ev.signInCall, Ev.signInOk] := by
          simp [entryRec, mount_not_mem_notice]
        have hnm2 : Ev.mount ∉ (if w.mountOk then ([] : List Ev)
            else [Ev.printedMsg "Error mounting file system."]) := by
          split <;> simp
        refine ⟨count_decomp2 _ _ _ (by simp) hnm1 hnm2, fun hm => ⟨by simp,
          (entryRec a w url).events ++ [Ev.signInCall, Ev.signInOk],
          (if w.mountOk then ([] : List Ev)
            else [Ev.printedMsg "Error mounting file system."]),
          by simp, by simp, by simp, hnm1, hnm2⟩⟩
      · simp only [mountStep_eq]
        have hnm1 : Ev.mount ∉ (entryRec a w url).events ++ [Ev.signInCall, Ev.signInOk] := by
          simp [entryRec, mount_not_mem_notice]
        have hnm2 : Ev.mount ∉ (if w.mountOk then ([] : List Ev)
            else [Ev.printedMsg "Error mounting file system."]) := by
          split <;> simp
        refine ⟨count_decomp2 _ _ _ (by simp) hnm1 hnm2, fun hm => ⟨by simp,
          (entryRec a w url).events ++ [Ev.signInCall, Ev.signInOk],
          (if w.mountOk then ([] : List Ev)
            else [Ev.printedMsg "Error mounting file system."]),
          by simp, by simp, by simp, hnm1, hnm2⟩⟩
      all_goals exact c6_nomount _ (by simp [entryRec, mount_not_mem_notice])
    · rw [hlp]
      rcases signInStep_cases a w
          { entryRec a w url with
              usedUsername := some (promptedUsername a w),
              genKeysArg := some (promptedPassword a w),
              events := (entryRec a w url).events ++ promptUserEvents a
                ++ promptPassEvents a ++ [Ev.genKeysCall, Ev.delPassword] }
          (flooredSyncSec a) (loadedCfg a w) (loadedCreds a w) url
          (promptedUsername a w) ks with
        ⟨hsi, -, hss⟩ | ⟨c2, d2, hsi, -, -, -, hss⟩ | ⟨hsi, -, -, hss⟩
          | ⟨c2, hsi, -, -, -, hss⟩ | ⟨m0, hsi, hss⟩ | ⟨hsi, hss⟩ | ⟨hsi, hss⟩
      all_goals rw [hss]
      · simp only [mountStep_eq]
        have hnm1 : Ev.mount ∉ (entryRec a w url).events ++ promptUserEvents a
            ++ promptPassEvents a ++ [Ev.genKeysCall, Ev.delPassword]
            ++ [Ev.signInCall, Ev.signInOk] := by
          simp [entryRec, mount_not_mem_notice,
            mount_not_mem_promptU, mount_not_mem_promptP]
        have hnm2 : Ev.mount ∉ (if w.mountOk then ([] : List Ev)
            else [Ev.printedMsg "Error mounting file system."]) := by
          split <;> simp
        refine ⟨count_decomp2 _ _ _ (by simp) hnm1 hnm2, fun hm => ⟨by simp,
          (entryRec a w url).events ++ promptUserEvents a
            ++ promptPassEvents a ++ [Ev.genKeysCall, Ev.delPassword]
            ++ [Ev.signInCall, Ev.signInOk],
          (if w.mountOk then ([] : List Ev)
            else [Ev.printedMsg "Error mounting file system."]),
          by simp, by simp, by simp, hnm1, hnm2⟩⟩
      · simp only [mountStep_eq]
        have hnm1 : Ev.mount ∉ (entryRec a w url).events ++ promptUserEvents a
            ++ promptPassEvents a ++ [Ev.genKeysCall, Ev.delPassword]
            ++ [Ev.signInCall, Ev.signInOk] := by
          simp [entryRec, mount_not_mem_notice,
            mount_not_mem_promptU, mount_not_mem_promptP]
        have hnm2 : Ev.mount ∉ (if w.mountOk then ([] : List Ev)
            else [Ev.printedMsg "Error mounting file system."]) := by
          split <;> simp
        refine ⟨count_decomp2 _ _ _ (by simp) hnm1 hnm2, fun hm => ⟨by simp,
          (entryRec a w url).events ++ promptUserEvents a
            ++ promptPassEvents a ++ [Ev.genKeysCall, Ev.delPassword]
            ++ [Ev.signInCall, Ev.signInOk],
          (if w.mountOk then ([] : List Ev)
            else [Ev.printedMsg "Error mounting file system."]),
          by simp, by simp, by simp, hnm1, hnm2⟩⟩
      all_goals exact c6_nomount _ (by simp [entryRec, mount_not_mem_notice,
        mount_not_mem_promptU, mount_not_mem_promptP])
    · rw [hlp]
      exact c6_nomount _ (by simp [entryRec, mount_not_mem_notice,
        mount_not_mem_promptU, mount_not_mem_promptP])
    · rw [hlp]
      exact c6_nomount _ (by simp [entryRec, mount_not_mem_notice,
        mount_not_mem_promptU, mount_not_mem_promptP])
    · rw [hlp]
      exact c6_nomount _ (by simp [entryRec, mount_not_mem_notice,
        mount_not_mem_promptU, mount_not_mem_promptP])

/-- Witness for C6 at a concrete mounting run. -/
theorem fuse_mount_once_after_auth_witness :
    Ev.mount ∈ (runMain argsUP worldOK).events
      ∧ (runMain argsUP worldOK).events.count Ev.mount ≤ 1
      ∧ ((runMain argsUP worldOK).usedKeys.isSome = true
          ∧ ∃ l1 l2, (runMain argsUP worldOK).events = l1 ++ Ev.mount :: l2
              ∧ Ev.signInCall ∈ l1 ∧ Ev.signInOk ∈ l1
              ∧ Ev.mount ∉ l1 ∧ Ev.mount ∉ l2) :=
  ⟨by decide, (fuse_mount_once_after_auth argsUP worldOK).1,
    (fuse_mount_once_after_auth argsUP worldOK).2 (by decide)⟩

/-- C9 (amended): the raw password never reaches either file: whenever key
derivation ran with password pw (and pw does not coincide with a value
already stored, a derived key value, the sync URL or the username), pw is
absent from the final contents of both files; and when derivation
succeeded, `del password` immediately follows the `gen_keys` call. -/
theorem password_never_persisted (a : Args) (w : World) (pw : String)
    (hga : (runMain a w).genKeysArg = some pw)
    (hcfg0 : pw ∉ fileOptionValues w.configFile)
    (hcreds0 : pw ∉ fileOptionValues w.credsFile)
    (hks : ∀ ks, w.server.genKeys pw = .ok ks → pw ∉ ks.map Prod.snd)
    (hurl : ∀ u2, (runMain a w).usedSyncUrl = some u2 → pw ≠ u2)
    (hun : ∀ un2, (runMain a w).usedUsername = some un2 → pw ≠ un2) :
    pw ∉ fileOptionValues (runMain a w).configFileAfter
      ∧ pw ∉ fileOptionValues (runMain a w).credsFileAfter
      ∧ (∀ ks, (runMain a w).usedKeys = some ks →
          ∃ l1 l2, (runMain a w).events = l1 ++ Ev.genKeysCall :: Ev.delPassword :: l2) := by
  rcases runMain_split a w with ⟨-, hg0, -⟩ | ⟨url, -, -, -, -, heq⟩
  · rw [hg0] at hga
    cases hga
  · rw [heq] at hga hurl hun ⊢
    rcases loginPhase_cases a w (entryRec a w url) (flooredSyncSec a)
        (loadedCfg a w) (loadedCreds a w) url with
      hlp | ⟨un, -, -, -, hlp⟩ | ⟨un, ks, -, -, -, hks2, hlp⟩ | ⟨ks, -, hg, hlp⟩
        | ⟨m0, -, hg, hlp⟩ | ⟨-, hg, hlp⟩ | ⟨-, hg, hlp⟩
    · rw [hlp] at hga
      exact absurd hga (by simp [entryRec])
    · rw [hlp] at hga
      exact absurd hga (by simp [entryRec])
    · rw [hlp] at hga
      rcases signInStep_cases a w { entryRec a w url with usedUsername := some un }
          (flooredSyncSec a) (loadedCfg a w) (loadedCreds a w) url un ks with
        ⟨hsi, -, hss⟩ | ⟨c2, d2, hsi, -, -, -, hss⟩ | ⟨hsi, -, -, hss⟩
          | ⟨c2, hsi, -, -, -, hss⟩ | ⟨m0, hsi, hss⟩ | ⟨hsi, hss⟩ | ⟨hsi, hss⟩
      all_goals rw [hss] at hga
      all_goals exact absurd hga (by simp [mountStep_eq, entryRec])
    · rw [hlp] at hga hurl hun ⊢
      rcases signInStep_cases a w
          { entryRec a w url with
              usedUsername := some (promptedUsername a w),
              genKeysArg := some (promptedPassword a w),
              events := (entryRec a w url).events ++ promptUserEvents a
                ++ promptPassEvents a ++ [Ev.genKeysCall, Ev.delPassword] }
          (flooredSyncSec a) (loadedCfg a w) (loadedCreds a w) url
          (promptedUsername a w) ks with
        ⟨hsi, hnf, hss⟩ | ⟨c2, d2, hsi, hnf, h1, h2, hss⟩ | ⟨hsi, hnf, h1, hss⟩
          | ⟨c2, hsi, hnf, h1, h2, hss⟩ | ⟨m0, hsi, hss⟩ | ⟨hsi, hss⟩ | ⟨hsi, hss⟩
      all_goals rw [hss] at hga hurl hun ⊢
      all_goals have hpw : promptedPassword a w = pw := by simpa [mountStep_eq, entryRec] using hga
      all_goals rw [hpw] at hg
      all_goals have hpwu : pw ≠ promptedUsername a w := hun (promptedUsername a w) (by simp [mountStep_eq, entryRec])
      all_goals have hpwl : pw ≠ url := hurl url (by simp [mountStep_eq, entryRec])
      all_goals have hksv : pw ∉ ks.map Prod.snd := hks ks hg
      · refine ⟨by simp [mountStep_eq, entryRec]; exact hcfg0,
          by simp [mountStep_eq, entryRec]; exact hcreds0, ?_⟩
        intro ks2 hks3
        exact ⟨(entryRec a w url).events ++ promptUserEvents a ++ promptPassEvents a,
          Ev.signInCall :: Ev.signInOk :: Ev.mount ::
            (if w.mountOk then ([] : List Ev)
              else [Ev.printedMsg "Error mounting file system."]), by simp [mountStep_eq]⟩
      · refine ⟨?_, ?_, ?_⟩
        · simp only [mountStep_eq]
          simp only [fileOptionValues]
          intro hx
          rcases readDictSection_values (loadedCfg a w) c2 "user" _ h1 pw
              (removeSection_values c2 "keys" pw hx) with h3 | h3
          · exact hcfg0 (loadedCfg_values a w pw h3)
          · simp at h3
            rcases h3 with h3 | h3
            · exact hpwl h3
            · exact hpwu h3
        · simp only [mountStep_eq]
          simp only [fileOptionValues]
          intro hx
          rcases readDictSection_values (loadedCreds a w) d2 "keys" ks h2 pw hx with h3 | h3
          · exact hcreds0 (loadedCreds_values a w pw h3)
          · exact hksv h3
        · intro ks2 hks3
          exact ⟨(entryRec a w url).events ++ promptUserEvents a ++ promptPassEvents a,
            Ev.signInCall :: Ev.signInOk :: Ev.mount ::
              (if w.mountOk then ([] : List Ev)
                else [Ev.printedMsg "Error mounting file system."]), by simp [mountStep_eq]⟩
      · refine ⟨by simp [fileOptionValues, cfgOptionValues, emptyConfig, sectionValues],
          by simp [entryRec]; exact hcreds0, ?_⟩
        intro ks2 hks3
        exact ⟨(entryRec a w url).events ++ promptUserEvents a ++ promptPassEvents a,
          [Ev.signInCall, Ev.signInOk], by simp⟩
      · refine ⟨?_, by simp [fileOptionValues, cfgOptionValues, emptyConfig, sectionValues], ?_⟩
        · simp only [fileOptionValues]
          intro hx
          rcases readDictSection_values (loadedCfg a w) c2 "user" _ h1 pw
              (removeSection_values c2 "keys" pw hx) with h3 | h3
          · exact hcfg0 (loadedCfg_values a w pw h3)
          · simp at h3
            rcases h3 with h3 | h3
            · exact hpwl h3
            · exact hpwu h3
        · intro ks2 hks3
          exact ⟨(entryRec a w url).events ++ promptUserEvents a ++ promptPassEvents a,
            [Ev.signInCall, Ev.signInOk], by simp⟩
      · refine ⟨?_, ?_, ?_⟩
        · by_cases hnf : a.noConfigFiles <;>
            simp [hnf, entryRec, fileOptionValues, cfgOptionValues, emptyConfig,
              sectionValues] <;> exact hcfg0
        · by_cases hnf : a.noConfigFiles <;>
            simp [hnf, entryRec, fileOptionValues, cfgOptionValues, emptyConfig,
              sectionValues] <;> exact hcreds0
        · intro ks2 hks3
          exact ⟨(entryRec a w url).events ++ promptUserEvents a ++ promptPassEvents a,
            [Ev.signInCall, Ev.printedMsg m0], by simp⟩
      · refine ⟨by simp [entryRec]; exact hcfg0, by simp [entryRec]; exact hcreds0, ?_⟩
        intro ks2 hks3
        exact ⟨(entryRec a w url).events ++ promptUserEvents a ++ promptPassEvents a,
          [Ev.signInCall, Ev.printedMsg (connErrMsg url)], by simp⟩
      · refine ⟨by simp [entryRec]; exact hcfg0, by simp [entryRec]; exact hcreds0, ?_⟩
        intro ks2 hks3
        exact ⟨(entryRec a w url).events ++ promptUserEvents a ++ promptPassEvents a,
          [Ev.signInCall, Ev.printedMsg (missingSchemaMsg url)], by simp⟩
    · rw [hlp] at hga hurl hun ⊢
      refine ⟨?_, ?_, ?_⟩
      · by_cases hnf : a.noConfigFiles <;>
          simp [hnf, entryRec, fileOptionValues, cfgOptionValues, emptyConfig,
            sectionValues] <;> exact hcfg0
      · by_cases hnf : a.noConfigFiles <;>
          simp [hnf, entryRec, fileOptionValues, cfgOptionValues, emptyConfig,
            sectionValues] <;> exact hcreds0
      · intro ks2 hks3
        exact absurd hks3 (by simp [entryRec])
    · rw [hlp] at hga hurl hun ⊢
      refine ⟨by simp [entryRec]; exact hcfg0, by simp [entryRec]; exact hcreds0, ?_⟩
      intro ks2 hks3
      exact absurd hks3 (by simp [entryRec])
    · rw [hlp] at hga hurl hun ⊢
      refine ⟨by simp [entryRec]; exact hcfg0, by simp [entryRec]; exact hcreds0, ?_⟩
      intro ks2 hks3
      exact absurd hks3 (by simp [entryRec])

/-- C9 counterexample: with a pre-existing unrelated config entry, the
config file written on success also contains that entry, refuting
"contains only the sync URL and username". -/
theorem config_not_only_user_counterexample :
    (runMain argsUP worldExtra).configFileAfter
        = some ⟨[], [("extra", [("a", "b")]),
            ("user", [("sync_url", officialServerUrl), ("username", "u")])]⟩
      ∧ "b" ∈ fileOptionValues (runMain argsUP worldExtra).configFileAfter
      ∧ "b" ≠ officialServerUrl ∧ "b" ≠ "u" := by
  decide

/-- Witness for C9 (amended) at a concrete derived-login run. -/
theorem password_never_persisted_witness :
    ((runMain argsUP worldOK).genKeysArg = some "p"
        ∧ "p" ∉ fileOptionValues worldOK.configFile)
      ∧ ("p" ∉ fileOptionValues (runMain argsUP worldOK).configFileAfter
          ∧ "p" ∉ fileOptionValues (runMain argsUP worldOK).credsFileAfter
          ∧ ∀ ks, (runMain argsUP worldOK).usedKeys = some ks →
              ∃ l1 l2, (runMain argsUP worldOK).events
                = l1 ++ Ev.genKeysCall :: Ev.delPassword :: l2) :=
  ⟨⟨by decide, by decide⟩,
    password_never_persisted argsUP worldOK "p" (by decide) (by decide) (by decide)
      (by
        intro ks h
        injection h with h2
        rw [← h2]
        decide)
      (by
        intro u2 h
        rw [show (runMain argsUP worldOK).usedSyncUrl = some officialServerUrl from
          by decide] at h
        injection h with h3
        rw [← h3]
        decide)
      (by
        intro un2 h
        rw [show (runMain argsUP worldOK).usedUsername = some "u" from by decide] at h
        injection h with h3
        rw [← h3]
        decide)⟩

end SNFS
